import Mathlib

/-!
Verification development for the `resume_generator` service.

Go strings are modelled as `List Char` (`GoStr`), byte slices as `List Nat`
with every element `< 256`, and machine integers as `Nat`/`Int` with explicit
bounds where overflow matters.  Pure Go functions become Lean functions;
external-library primitives (Argon2id, HMAC-SHA256, AES-GCM, JSON, JWT
signing) are passed in as explicit function parameters, with the library's
documented behaviour (e.g. decryption inverts encryption) taken as a
hypothesis where a theorem needs it.  Standard-library helpers that the code
calls (`strings.TrimSpace`, `strings.Split`, `base64`, `http.StatusText`,
decimal formatting) are embedded concretely.
-/

set_option maxHeartbeats 1000000

namespace ResumeGen

/-- Go string, modelled as its list of characters. -/
abbrev GoStr := List Char

/-- Coercion from a Lean string literal to the Go-string model. -/
def gs (s : String) : GoStr := s.data

/-- Byte predicate for `List Nat` modelling Go `[]byte`. -/
def Bytes (l : List Nat) : Prop := ∀ b ∈ l, b < 256

instance (l : List Nat) : Decidable (Bytes l) :=
  inferInstanceAs (Decidable (∀ b ∈ l, b < 256))

instance {ε α : Type} [DecidableEq ε] [DecidableEq α] :
    DecidableEq (Except ε α) := fun x y =>
  match x, y with
  | .error a, .error b =>
    if h : a = b then isTrue (congrArg Except.error h)
    else isFalse (fun hc => h (by injection hc))
  | .error _, .ok _ => isFalse (fun hc => Except.noConfusion hc)
  | .ok _, .error _ => isFalse (fun hc => Except.noConfusion hc)
  | .ok a, .ok b =>
    if h : a = b then isTrue (congrArg Except.ok h)
    else isFalse (fun hc => h (by injection hc))

/-! ## `strings.TrimSpace` -/

/-- Embeds Go `unicode.IsSpace` (the White_Space property). -/
def isGoSpace (c : Char) : Bool :=
  let n := c.toNat
  (9 ≤ n && n ≤ 13) || n = 32 || n = 0x85 || n = 0xA0 || n = 0x1680 ||
  (0x2000 ≤ n && n ≤ 0x200A) || n = 0x2028 || n = 0x2029 || n = 0x202F ||
  n = 0x205F || n = 0x3000

/-- Embeds Go `strings.TrimSpace`: drops the leading and trailing runs of
white-space characters. -/
def trimSpace (s : GoStr) : GoStr := (s.dropWhile isGoSpace).rdropWhile isGoSpace

theorem dropWhile_rdropWhile_self (p : Char → Bool) (l : List Char)
    (h : l.dropWhile p = l) : (l.rdropWhile p).dropWhile p = l.rdropWhile p := by
  rcases hx : l.rdropWhile p with _ | ⟨a, as⟩
  · simp
  · have hpre := List.rdropWhile_prefix p l
    rw [hx] at hpre
    rcases hpre with ⟨t, ht⟩
    have hl : l = a :: (as ++ t) := by rw [← ht]; simp
    have hpa : ¬ p a = true := by
      rw [hl] at h
      have h2 := List.dropWhile_eq_self_iff.mp h
      simpa using h2 (by simp)
    simp [List.dropWhile_cons, hpa]

theorem trimSpace_idem (s : GoStr) : trimSpace (trimSpace s) = trimSpace s := by
  unfold trimSpace
  rw [dropWhile_rdropWhile_self _ _ (List.dropWhile_idempotent _ _),
    List.rdropWhile_idempotent]

theorem trimSpace_ne_nil_of_idem {s : GoStr} (h : trimSpace s ≠ []) :
    trimSpace (trimSpace s) ≠ [] := by rw [trimSpace_idem]; exact h

/-! ## Domain models (resume sections relevant to the claims)

Embedded from `backend/internal/domain/education.go`, `skill.go` and the
`Certification` model. -/

/-- Embeds the `domain.Education` struct. -/
structure Education where
  Institution : GoStr
  Location : GoStr
  Degree : GoStr
  Field : GoStr
  StartDate : GoStr
  EndDate : GoStr
  Description : GoStr
  deriving DecidableEq, Repr

/-- Embeds `Education.BeforeSave`: trims every string field. -/
def Education.BeforeSave (e : Education) : Education :=
  { Institution := trimSpace e.Institution
    Location := trimSpace e.Location
    Degree := trimSpace e.Degree
    Field := trimSpace e.Field
    StartDate := trimSpace e.StartDate
    EndDate := trimSpace e.EndDate
    Description := trimSpace e.Description }

/-- Embeds the `domain.Skill` struct. -/
structure Skill where
  Name : GoStr
  Category : GoStr
  Proficiency : Int
  deriving DecidableEq, Repr

/-- Embeds `domain.SkillCategoryOther`. -/
def SkillCategoryOther : GoStr := gs "other"

/-- Embeds `Skill.BeforeSave`: trims `Name` and `Category`, then defaults a
blank category to `other`. -/
def Skill.BeforeSave (s : Skill) : Skill :=
  let name := trimSpace s.Name
  let cat := trimSpace s.Category
  { Name := name
    Category := if cat = [] then SkillCategoryOther else cat
    Proficiency := s.Proficiency }

/-- Embeds the `domain.Certification` struct. -/
structure Certification where
  Name : GoStr
  Issuer : GoStr
  IssueDate : GoStr
  ExpiryDate : GoStr
  CredentialID : GoStr
  URL : GoStr
  deriving DecidableEq, Repr

/-- Embeds `Certification.BeforeSave`: trims every string field. -/
def Certification.BeforeSave (c : Certification) : Certification :=
  { Name := trimSpace c.Name
    Issuer := trimSpace c.Issuer
    IssueDate := trimSpace c.IssueDate
    ExpiryDate := trimSpace c.ExpiryDate
    CredentialID := trimSpace c.CredentialID
    URL := trimSpace c.URL }

theorem trimSpace_other : trimSpace SkillCategoryOther = SkillCategoryOther := by
  decide

theorem other_ne_nil : SkillCategoryOther ≠ [] := by decide

/-- C10: `BeforeSave` is idempotent on `Education`, `Skill` and
`Certification` values: applying it twice yields the same value as applying
it once (whitespace trimming is idempotent, and the `Skill` category default
of `other` is stable under a second application). -/
theorem C10_beforeSave_idempotent :
    (∀ e : Education, (e.BeforeSave).BeforeSave = e.BeforeSave) ∧
    (∀ s : Skill, (s.BeforeSave).BeforeSave = s.BeforeSave) ∧
    (∀ c : Certification, (c.BeforeSave).BeforeSave = c.BeforeSave) := by
  refine ⟨fun e => ?_, fun s => ?_, fun c => ?_⟩
  · simp [Education.BeforeSave, trimSpace_idem]
  · by_cases h : trimSpace s.Category = []
    · simp [Skill.BeforeSave, trimSpace_idem, h, trimSpace_other, other_ne_nil]
    · simp [Skill.BeforeSave, trimSpace_idem, h]
  · simp [Certification.BeforeSave, trimSpace_idem]

/-! ## `strings.Split` on a single-character separator -/

/-- Embeds Go `strings.Split(s, sep)` for a one-character separator.
`splitOnChar sep []` is `[[]]`, matching Go's `Split("", sep) = [""]`. -/
def splitOnChar (sep : Char) : GoStr → List GoStr
  | [] => [[]]
  | c :: rest =>
    if c = sep then [] :: splitOnChar sep rest
    else
      match splitOnChar sep rest with
      | [] => [[c]]
      | p :: ps => (c :: p) :: ps

theorem splitOnChar_ne_nil (sep : Char) (l : GoStr) : splitOnChar sep l ≠ [] := by
  induction l with
  | nil => simp [splitOnChar]
  | cons c rest ih =>
    by_cases h : c = sep
    · simp [splitOnChar, h]
    · simp only [splitOnChar, if_neg h]
      cases hs : splitOnChar sep rest <;> simp

theorem splitOnChar_sepFree (sep : Char) (l : GoStr) (h : ∀ c ∈ l, c ≠ sep) :
    splitOnChar sep l = [l] := by
  induction l with
  | nil => rfl
  | cons c rest ih =>
    have hc : c ≠ sep := h c (by simp)
    have hrest := ih (fun d hd => h d (by simp [hd]))
    simp [splitOnChar, hc, hrest]

theorem splitOnChar_append (sep : Char) (a rest : GoStr) (h : ∀ c ∈ a, c ≠ sep) :
    splitOnChar sep (a ++ sep :: rest) = a :: splitOnChar sep rest := by
  induction a with
  | nil => simp [splitOnChar]
  | cons c a2 ih =>
    have hc : c ≠ sep := h c (by simp)
    have ha2 := ih (fun d hd => h d (by simp [hd]))
    simp only [List.cons_append, splitOnChar, if_neg hc]
    rw [← List.append_eq] at ha2
    rw [ha2]

/-! ## `takeWhile` / `dropWhile` across an append -/

theorem dropWhile_append_of (p : Char → Bool) (a b : GoStr)
    (ha : ∀ c ∈ a, p c = true) (hb : ∀ c ∈ b.head?, p c = false) :
    (a ++ b).dropWhile p = b := by
  induction a with
  | nil =>
    simp only [List.nil_append]
    cases b with
    | nil => rfl
    | cons x xs =>
      have hx : p x = false := hb x (by simp)
      simp [List.dropWhile_cons, hx]
  | cons c a2 ih =>
    have hc : p c = true := ha c (by simp)
    simp only [List.cons_append, List.dropWhile_cons, hc, if_pos]
    exact ih (fun d hd => ha d (by simp [hd]))

theorem takeWhile_append_of (p : Char → Bool) (a b : GoStr)
    (ha : ∀ c ∈ a, p c = true) (hb : ∀ c ∈ b.head?, p c = false) :
    (a ++ b).takeWhile p = a := by
  induction a with
  | nil =>
    simp only [List.nil_append]
    cases b with
    | nil => rfl
    | cons x xs =>
      have hx : p x = false := hb x (by simp)
      simp [List.takeWhile_cons, hx]
  | cons c a2 ih =>
    have hc : p c = true := ha c (by simp)
    simp only [List.cons_append, List.takeWhile_cons, hc, if_pos]
    simp [ih (fun d hd => ha d (by simp [hd]))]

/-! ## Decimal rendering (`fmt.Sprintf("%d", n)`) and parsing (`%d` verbs) -/

/-- Decimal digit character for `n < 10`. -/
def digitChar (n : Nat) : Char := Char.ofNat (48 + n)

/-- ASCII decimal-digit test. -/
def isDigitCh (c : Char) : Bool := 48 ≤ c.toNat && c.toNat ≤ 57

/-- Fuelled digit renderer (structural recursion, so that it evaluates under
`decide`); `natToDec` supplies enough fuel. -/
def natToDecAux (fuel : Nat) (n : Nat) : GoStr :=
  match fuel with
  | 0 => []
  | fuel + 1 =>
    if n < 10 then [digitChar n]
    else natToDecAux fuel (n / 10) ++ [digitChar (n % 10)]

/-- Embeds Go's decimal rendering of an unsigned integer (`%d`). -/
def natToDec (n : Nat) : GoStr := natToDecAux (n + 1) n

theorem natToDecAux_invariant (n : Nat) : ∀ f1 f2 : Nat, n < f1 → n < f2 →
    natToDecAux f1 n = natToDecAux f2 n := by
  induction n using Nat.strong_induction_on with
  | _ n ih =>
    intro f1 f2 h1 h2
    match f1, f2 with
    | g1 + 1, g2 + 1 =>
      by_cases h : n < 10
      · simp [natToDecAux, h]
      · have hdiv : n / 10 < n := Nat.div_lt_self (by omega) (by omega)
        simp only [natToDecAux, if_neg h]
        rw [ih (n / 10) hdiv g1 g2 (by omega) (by omega)]

theorem natToDec_eq (n : Nat) :
    natToDec n = if n < 10 then [digitChar n]
      else natToDec (n / 10) ++ [digitChar (n % 10)] := by
  by_cases h : n < 10
  · rw [if_pos h]
    unfold natToDec
    simp [natToDecAux, h]
  · rw [if_neg h]
    have hdiv : n / 10 < n := Nat.div_lt_self (by omega) (by omega)
    have h1 : natToDecAux (n + 1) n
        = natToDecAux n (n / 10) ++ [digitChar (n % 10)] := by
      simp [natToDecAux, h]
    unfold natToDec
    rw [h1, natToDecAux_invariant (n / 10) n (n / 10 + 1) hdiv (by omega)]

/-- Numeric value of a digit string (used by the `%d` scanners). -/
def decValue (l : GoStr) : Nat := l.foldl (fun a c => a * 10 + (c.toNat - 48)) 0

theorem toNat_digitChar {n : Nat} (h : n < 10) : (digitChar n).toNat = 48 + n := by
  interval_cases n <;> decide

theorem isDigitCh_digitChar {n : Nat} (h : n < 10) : isDigitCh (digitChar n) = true := by
  interval_cases n <;> decide

theorem natToDec_digits (n : Nat) : ∀ c ∈ natToDec n, isDigitCh c = true := by
  induction n using Nat.strong_induction_on with
  | _ n ih =>
    by_cases h : n < 10
    · rw [natToDec_eq, if_pos h]
      intro c hc
      simp at hc
      subst hc
      exact isDigitCh_digitChar h
    · rw [natToDec_eq, if_neg h]
      intro c hc
      rcases List.mem_append.mp hc with hc | hc
      · exact ih (n / 10) (Nat.div_lt_self (by omega) (by omega)) c hc
      · simp at hc
        subst hc
        exact isDigitCh_digitChar (Nat.mod_lt _ (by omega))

theorem natToDec_ne_nil (n : Nat) : natToDec n ≠ [] := by
  by_cases h : n < 10
  · rw [natToDec_eq, if_pos h]; simp
  · rw [natToDec_eq, if_neg h]; simp

theorem decValue_append_digit (a : GoStr) (c : Char) :
    decValue (a ++ [c]) = decValue a * 10 + (c.toNat - 48) := by
  simp [decValue, List.foldl_append]

theorem decValue_natToDec (n : Nat) : decValue (natToDec n) = n := by
  induction n using Nat.strong_induction_on with
  | _ n ih =>
    by_cases h : n < 10
    · rw [natToDec_eq, if_pos h]
      simp [decValue, toNat_digitChar h]
    · rw [natToDec_eq, if_neg h, decValue_append_digit,
        ih (n / 10) (Nat.div_lt_self (by omega) (by omega)),
        toNat_digitChar (Nat.mod_lt _ (by omega))]
      omega

theorem isDigitCh_ne {c d : Char} (h : isDigitCh c = true)
    (hd : d.toNat < 48 ∨ 57 < d.toNat) : c ≠ d := by
  intro he
  subst he
  simp [isDigitCh] at h
  omega

/-! ## Base64

Embeds Go `encoding/base64`: `RawStdEncoding` (unpadded, used by the password
hash format) and `StdEncoding` (padded, used by CSRF tokens and session
cookies).  Bytes are `Nat`s below 256; the decoder is lenient about non-zero
trailing bits, as Go's non-`Strict` decoder is. -/

/-- The standard base64 alphabet. -/
def b64Alphabet : GoStr :=
  gs "ABCDEFGHIJKLMNOPQRSTUVWXYZabcdefghijklmnopqrstuvwxyz0123456789+/"

/-- Character for a 6-bit group. -/
def b64CharOf (i : Nat) : Char := (b64Alphabet.get? i).getD 'A'

/-- Index of a character in the base64 alphabet. -/
def b64IdxOf (c : Char) : Option Nat := b64Alphabet.findIdx? (fun d => d = c)

theorem b64CharOf_mem (i : Nat) : b64CharOf i ∈ b64Alphabet := by
  unfold b64CharOf
  cases h : b64Alphabet.get? i with
  | none => simp; decide
  | some c =>
    simp only [h, Option.getD_some]
    exact List.get?_mem h

theorem b64IdxOf_b64CharOf : ∀ i < 64, b64IdxOf (b64CharOf i) = some i := by
  decide

/-- 6-bit groups of the base64 encoding of a byte list (RFC 4648, unpadded). -/
def b64EncGroups : List Nat → List Nat
  | b0 :: b1 :: b2 :: rest =>
    (b0 / 4) :: ((b0 % 4) * 16 + b1 / 16) :: ((b1 % 16) * 4 + b2 / 64) ::
      (b2 % 64) :: b64EncGroups rest
  | [b0, b1] => [b0 / 4, (b0 % 4) * 16 + b1 / 16, (b1 % 16) * 4]
  | [b0] => [b0 / 4, (b0 % 4) * 16]
  | [] => []

/-- Bytes recovered from 6-bit groups; `none` on an impossible group count. -/
def b64DecGroups : List Nat → Option (List Nat)
  | c0 :: c1 :: c2 :: c3 :: rest =>
    (b64DecGroups rest).map fun l =>
      (c0 * 4 + c1 / 16) :: ((c1 % 16) * 16 + c2 / 4) :: ((c2 % 4) * 64 + c3) :: l
  | [c0, c1, c2] => some [c0 * 4 + c1 / 16, (c1 % 16) * 16 + c2 / 4]
  | [c0, c1] => some [c0 * 4 + c1 / 16]
  | [_] => none
  | [] => some []

theorem b64DecGroups_encGroups (l : List Nat) (h : Bytes l) :
    b64DecGroups (b64EncGroups l) = some l := by
  induction l using b64EncGroups.induct with
  | case1 b0 b1 b2 rest ih =>
    have h0 : b0 < 256 := h b0 (by simp)
    have h1 : b1 < 256 := h b1 (by simp)
    have h2 : b2 < 256 := h b2 (by simp)
    have hrest := ih (fun b hb => h b (by simp [hb]))
    simp only [b64EncGroups, b64DecGroups, hrest, Option.map_some]
    have e0 : b0 / 4 * 4 + ((b0 % 4) * 16 + b1 / 16) / 16 = b0 := by omega
    have e1 : ((b0 % 4) * 16 + b1 / 16) % 16 * 16 + ((b1 % 16) * 4 + b2 / 64) / 4 = b1 := by
      omega
    have e2 : ((b1 % 16) * 4 + b2 / 64) % 4 * 64 + b2 % 64 = b2 := by omega
    rw [e0, e1, e2]
    rfl
  | case2 b0 b1 =>
    have h0 : b0 < 256 := h b0 (by simp)
    have h1 : b1 < 256 := h b1 (by simp)
    simp only [b64EncGroups, b64DecGroups]
    have e0 : b0 / 4 * 4 + ((b0 % 4) * 16 + b1 / 16) / 16 = b0 := by omega
    have e1 : ((b0 % 4) * 16 + b1 / 16) % 16 * 16 + (b1 % 16) * 4 / 4 = b1 := by omega
    rw [e0, e1]
  | case3 b0 =>
    have h0 : b0 < 256 := h b0 (by simp)
    simp only [b64EncGroups, b64DecGroups]
    have e0 : b0 / 4 * 4 + (b0 % 4) * 16 / 16 = b0 := by omega
    rw [e0]
  | case4 => rfl

theorem b64EncGroups_lt (l : List Nat) (h : Bytes l) :
    ∀ x ∈ b64EncGroups l, x < 64 := by
  induction l using b64EncGroups.induct with
  | case1 b0 b1 b2 rest ih =>
    have h0 : b0 < 256 := h b0 (by simp)
    have h1 : b1 < 256 := h b1 (by simp)
    have h2 : b2 < 256 := h b2 (by simp)
    have hrest := ih (fun b hb => h b (by simp [hb]))
    intro x hx
    simp only [b64EncGroups, List.mem_cons] at hx
    rcases hx with rfl | rfl | rfl | rfl | hx
    · omega
    · omega
    · omega
    · omega
    · exact hrest x hx
  | case2 b0 b1 =>
    have h0 : b0 < 256 := h b0 (by simp)
    have h1 : b1 < 256 := h b1 (by simp)
    intro x hx
    simp only [b64EncGroups, List.mem_cons] at hx
    rcases hx with rfl | rfl | rfl | hx
    · omega
    · omega
    · omega
    · simp at hx
  | case3 b0 =>
    have h0 : b0 < 256 := h b0 (by simp)
    intro x hx
    simp only [b64EncGroups, List.mem_cons] at hx
    rcases hx with rfl | rfl | hx
    · omega
    · omega
    · simp at hx
  | case4 => simp [b64EncGroups]

theorem b64EncGroups_length (l : List Nat) :
    (b64EncGroups l).length = (l.length * 8 + 5) / 6 := by
  induction l using b64EncGroups.induct with
  | case1 b0 b1 b2 rest ih => simp [b64EncGroups, ih]; omega
  | case2 b0 b1 => simp [b64EncGroups]
  | case3 b0 => simp [b64EncGroups]
  | case4 => simp [b64EncGroups]

/-- Embeds `base64.RawStdEncoding.EncodeToString`. -/
def b64RawStd (bytes : List Nat) : GoStr := (b64EncGroups bytes).map b64CharOf

/-- Alphabet indices of a character list; `none` on a non-alphabet char. -/
def b64Indices : GoStr → Option (List Nat)
  | [] => some []
  | c :: rest => (b64IdxOf c).bind fun i => (b64Indices rest).map fun is => i :: is

/-- Embeds `base64.RawStdEncoding.DecodeString`. -/
def b64RawStdDec (s : GoStr) : Option (List Nat) :=
  (b64Indices s).bind b64DecGroups

theorem b64Indices_map (l : List Nat) (h : ∀ x ∈ l, x < 64) :
    b64Indices (l.map b64CharOf) = some l := by
  induction l with
  | nil => rfl
  | cons x xs ih =>
    have hx := b64IdxOf_b64CharOf x (h x (by simp))
    have hxs := ih (fun y hy => h y (by simp [hy]))
    simp [b64Indices, hx, hxs]

theorem b64RawStdDec_b64RawStd (l : List Nat) (h : Bytes l) :
    b64RawStdDec (b64RawStd l) = some l := by
  unfold b64RawStdDec b64RawStd
  rw [b64Indices_map _ (b64EncGroups_lt l h)]
  simpa using b64DecGroups_encGroups l h

theorem b64RawStd_length (l : List Nat) :
    (b64RawStd l).length = (l.length * 8 + 5) / 6 := by
  simp [b64RawStd, b64EncGroups_length]

theorem b64RawStd_injOn {l1 l2 : List Nat} (h1 : Bytes l1) (h2 : Bytes l2)
    (he : b64RawStd l1 = b64RawStd l2) : l1 = l2 := by
  have := b64RawStdDec_b64RawStd l1 h1
  rw [he, b64RawStdDec_b64RawStd l2 h2] at this
  exact (Option.some_inj.mp this).symm

theorem b64RawStd_mem_alphabet (l : List Nat) :
    ∀ c ∈ b64RawStd l, c ∈ b64Alphabet := by
  intro c hc
  rcases List.mem_map.mp hc with ⟨i, _, rfl⟩
  exact b64CharOf_mem i

/-- Embeds `base64.StdEncoding.EncodeToString` (padded). -/
def b64Std (bytes : List Nat) : GoStr :=
  b64RawStd bytes ++ List.replicate ((4 - (b64RawStd bytes).length % 4) % 4) '='

/-- Embeds `base64.StdEncoding.DecodeString` (padded). -/
def b64StdDec (s : GoStr) : Option (List Nat) :=
  if s.length % 4 ≠ 0 then none
  else if s.length - (s.rdropWhile (fun c => c = '=')).length > 2 then none
  else b64RawStdDec (s.rdropWhile (fun c => c = '='))

theorem eq_ne_of_mem_alphabet {c : Char} (h : c ∈ b64Alphabet) : c ≠ '=' := by
  intro he
  subst he
  revert h
  decide

theorem b64Std_rdropWhile (l : List Nat) :
    (b64Std l).rdropWhile (fun c => c = '=') = b64RawStd l := by
  unfold b64Std List.rdropWhile
  rw [List.reverse_append, List.reverse_replicate]
  rw [dropWhile_append_of _ _ _ (by intro c hc; simp at hc; simp [hc])
    (by
      intro c hc
      have hc2 : c ∈ (b64RawStd l).reverse := List.mem_of_mem_head? hc
      have hc3 : c ∈ b64RawStd l := by simpa using hc2
      have halpha := b64RawStd_mem_alphabet l c hc3
      simpa using eq_ne_of_mem_alphabet halpha)]
  simp

theorem b64Std_length (l : List Nat) :
    (b64Std l).length
      = (b64RawStd l).length + (4 - (b64RawStd l).length % 4) % 4 := by
  simp [b64Std]

theorem b64StdDec_b64Std (l : List Nat) (h : Bytes l) :
    b64StdDec (b64Std l) = some l := by
  have hraw := b64RawStd_length l
  have hlen := b64Std_length l
  unfold b64StdDec
  rw [b64Std_rdropWhile]
  rw [if_neg (by omega), if_neg (by omega)]
  exact b64RawStdDec_b64RawStd l h

/-! ## Password hashing (`pkg/security` Argon2id wrapper)

Embeds `HashPassword`, `VerifyPassword` and `decodeHash`.  The Argon2id key
derivation itself is the external `golang.org/x/crypto/argon2` primitive and
is a function parameter; the random salt drawn by `HashPassword` is made an
explicit argument. -/

/-- Embeds the `security.Argon2Params` struct (`uint32`/`uint8` fields as
bounded naturals). -/
structure Argon2Params where
  Memory : Nat
  Iterations : Nat
  Parallelism : Nat
  SaltLength : Nat
  KeyLength : Nat
  deriving DecidableEq, Repr

/-- Embeds `DefaultArgon2Params`. -/
def DefaultArgon2Params : Argon2Params :=
  { Memory := 64 * 1024, Iterations := 3, Parallelism := 4
    SaltLength := 16, KeyLength := 32 }

/-- The `argon2.Version` constant (19). -/
def argon2Version : Nat := 19

/-- Signature of `argon2.IDKey`: password, salt, iterations, memory,
parallelism, key length. -/
abbrev IDKeyFun := GoStr → List Nat → Nat → Nat → Nat → Nat → List Nat

/-- Models Go `subtle.ConstantTimeCompare`, which returns 1 iff the two byte
slices have equal length and contents. -/
def constantTimeCompare (a b : List Nat) : Nat := if a = b then 1 else 0

/-- The `v=%d` segment of the encoded hash. -/
def versionSegment : GoStr := gs "v=" ++ natToDec argon2Version

/-- The `m=%d,t=%d,p=%d` segment of the encoded hash. -/
def paramsSegment (params : Argon2Params) : GoStr :=
  gs "m=" ++ natToDec params.Memory ++ gs ",t=" ++ natToDec params.Iterations ++
  gs ",p=" ++ natToDec params.Parallelism

/-- Embeds the `fmt.Sprintf("$argon2id$v=%d$m=%d,t=%d,p=%d$%s$%s", ...)`
call in `HashPassword`. -/
def encodeHash (params : Argon2Params) (salt hash : List Nat) : GoStr :=
  gs "$" ++ gs "argon2id" ++ gs "$" ++ versionSegment ++ gs "$" ++
  paramsSegment params ++ gs "$" ++ b64RawStd salt ++ gs "$" ++ b64RawStd hash

/-- Embeds `HashPassword` (the random salt is explicit; `none` parameters
select `DefaultArgon2Params`, as in the source). -/
def HashPassword (idKey : IDKeyFun) (password : GoStr)
    (paramsOpt : Option Argon2Params) (salt : List Nat) : GoStr :=
  let params := paramsOpt.getD DefaultArgon2Params
  encodeHash params salt
    (idKey password salt params.Iterations params.Memory params.Parallelism
      params.KeyLength)

/-- Error outcomes of `decodeHash`: the two named sentinel errors plus the
`fmt.Sscanf` and base64 errors the code returns verbatim. -/
inductive HashDecodeError where
  | invalidHash
  | incompatibleVersion
  | scanError
  | base64Error
  deriving DecidableEq, Repr

/-- Strips an exact literal from the front of a string (the literal part of
an `fmt.Sscanf` format). -/
def dropLit : GoStr → GoStr → Option GoStr
  | [], s => some s
  | c :: cs, d :: ds => if c = d then dropLit cs ds else none
  | _ :: _, [] => none

/-- Models the `%d` verb of `fmt.Sscanf` scanning into an unsigned integer
type with the given exclusive bound (out-of-range is a scan error);
returns the value and the unconsumed remainder. -/
def scanUint (bound : Nat) (s : GoStr) : Option (Nat × GoStr) :=
  let digs := s.takeWhile isDigitCh
  if digs = [] then none
  else if bound ≤ decValue digs then none
  else some (decValue digs, s.dropWhile isDigitCh)

/-- Models the `%d` verb of `fmt.Sscanf` scanning into a signed `int`. -/
def scanInt (s : GoStr) : Option Int :=
  match s with
  | c :: rest =>
    if c = '-' then (scanUint (2 ^ 63) rest).map (fun r => -(r.1 : Int))
    else (scanUint (2 ^ 63) (c :: rest)).map (fun r => (r.1 : Int))
  | [] => none

/-- Models `fmt.Sscanf(parts[2], "v=%d", &version)` (trailing input after
the last verb is not an `Sscanf` error). -/
def scanVersion (s : GoStr) : Option Int :=
  (dropLit (gs "v=") s).bind scanInt

/-- Models `fmt.Sscanf(parts[3], "m=%d,t=%d,p=%d", &memory, &iterations,
&parallelism)` with `uint32`, `uint32`, `uint8` targets. -/
def scanParams (s : GoStr) : Option (Nat × Nat × Nat) :=
  match dropLit (gs "m=") s with
  | none => none
  | some s1 =>
    match scanUint (2 ^ 32) s1 with
    | none => none
    | some (m, s2) =>
      match dropLit (gs ",t=") s2 with
      | none => none
      | some s3 =>
        match scanUint (2 ^ 32) s3 with
        | none => none
        | some (t, s4) =>
          match dropLit (gs ",p=") s4 with
          | none => none
          | some s5 =>
            match scanUint (2 ^ 8) s5 with
            | none => none
            | some (p, _) => some (m, t, p)

/-- Embeds `decodeHash`: split on `$`, check segment count and algorithm
id, scan version and parameters, base64-decode salt and hash. -/
def decodeHash (encodedHash : GoStr) :
    Except HashDecodeError (Argon2Params × List Nat × List Nat) :=
  match splitOnChar '$' encodedHash with
  | [_, p1, p2, p3, p4, p5] =>
    if p1 ≠ gs "argon2id" then .error .invalidHash
    else
      match scanVersion p2 with
      | none => .error .scanError
      | some version =>
        if version ≠ (argon2Version : Int) then .error .incompatibleVersion
        else
          match scanParams p3 with
          | none => .error .scanError
          | some mtp =>
            match b64RawStdDec p4 with
            | none => .error .base64Error
            | some salt =>
              match b64RawStdDec p5 with
              | none => .error .base64Error
              | some hash =>
                .ok ({ Memory := mtp.1, Iterations := mtp.2.1,
                       Parallelism := mtp.2.2, SaltLength := salt.length,
                       KeyLength := hash.length }, salt, hash)
  | _ => .error .invalidHash

/-- Embeds `VerifyPassword`: decode, recompute with the embedded parameters
and salt, compare in constant time. -/
def VerifyPassword (idKey : IDKeyFun) (password encodedHash : GoStr) :
    Except HashDecodeError Bool :=
  match decodeHash encodedHash with
  | .error e => .error e
  | .ok phs =>
    let params := phs.1
    let salt := phs.2.1
    let hash := phs.2.2
    let computedHash := idKey password salt params.Iterations params.Memory
      params.Parallelism params.KeyLength
    if constantTimeCompare hash computedHash = 1 then .ok true else .ok false

/-- The parameter record `decodeHash` reconstructs: scanned values plus the
measured salt and key lengths. -/
def withLengths (params : Argon2Params) (saltLen keyLen : Nat) : Argon2Params :=
  { params with SaltLength := saltLen, KeyLength := keyLen }

theorem dropLit_append (a rest : GoStr) : dropLit a (a ++ rest) = some rest := by
  induction a with
  | nil => rfl
  | cons c cs ih => simp [dropLit, ih]

theorem dropLit_cons_append (c : Char) (a rest : GoStr) :
    dropLit (c :: a) (c :: (a ++ rest)) = some rest := by
  simp [dropLit, dropLit_append]

theorem scanUint_render (bound n : Nat) (hn : n < bound) (rest : GoStr)
    (hrest : ∀ c ∈ rest.head?, isDigitCh c = false) :
    scanUint bound (natToDec n ++ rest) = some (n, rest) := by
  unfold scanUint
  rw [takeWhile_append_of _ _ _ (natToDec_digits n) hrest,
    dropWhile_append_of _ _ _ (natToDec_digits n) hrest]
  rw [if_neg (natToDec_ne_nil n), decValue_natToDec, if_neg (by omega)]

theorem scanInt_natToDec (n : Nat) (hn : n < 2 ^ 63) :
    scanInt (natToDec n) = some (n : Int) := by
  have hsu : scanUint (2 ^ 63) (natToDec n) = some (n, []) := by
    have h := scanUint_render (2 ^ 63) n hn [] (by simp)
    rwa [List.append_nil] at h
  rcases hv : natToDec n with _ | ⟨c, cs⟩
  · exact absurd hv (natToDec_ne_nil n)
  · have hc : isDigitCh c = true := natToDec_digits n c (by rw [hv]; simp)
    have hcm : c ≠ '-' := isDigitCh_ne hc (by decide)
    rw [hv] at hsu
    simp only [scanInt, if_neg hcm, hsu, Option.map_some]
    rfl

theorem scanVersion_render (v : Nat) (hv : v < 2 ^ 63) :
    scanVersion (gs "v=" ++ natToDec v) = some (v : Int) := by
  unfold scanVersion
  rw [dropLit_append]
  simpa using scanInt_natToDec v hv

theorem scanParams_render (m t p : Nat) (hm : m < 2 ^ 32) (ht : t < 2 ^ 32)
    (hp : p < 2 ^ 8) :
    scanParams (gs "m=" ++ natToDec m ++ gs ",t=" ++ natToDec t ++ gs ",p=" ++
      natToDec p) = some (m, t, p) := by
  have e1 : gs ",t=" = ',' :: gs "t=" := rfl
  have e2 : gs ",p=" = ',' :: gs "p=" := rfl
  have hassoc : gs "m=" ++ natToDec m ++ gs ",t=" ++ natToDec t ++ gs ",p=" ++
      natToDec p
      = gs "m=" ++ (natToDec m ++ (',' :: (gs "t=" ++ (natToDec t ++
          (',' :: (gs "p=" ++ natToDec p)))))) := by
    rw [e1, e2]
    simp [List.append_assoc]
  rw [hassoc]
  have hcomma : ∀ x : GoStr, ∀ c ∈ (List.head? (',' :: x)), isDigitCh c = false := by
    intro x c hc
    simp at hc
    subst hc
    decide
  have hsu3 : scanUint (2 ^ 8) (natToDec p) = some (p, []) := by
    have h := scanUint_render (2 ^ 8) p hp [] (by simp)
    rwa [List.append_nil] at h
  have hA := dropLit_append (gs "m=")
    (natToDec m ++ ',' :: (gs "t=" ++ (natToDec t ++ ',' :: (gs "p=" ++ natToDec p))))
  have hB := scanUint_render (2 ^ 32) m hm
    (',' :: (gs "t=" ++ (natToDec t ++ ',' :: (gs "p=" ++ natToDec p)))) (hcomma _)
  have hC : dropLit (gs ",t=")
      (',' :: (gs "t=" ++ (natToDec t ++ ',' :: (gs "p=" ++ natToDec p))))
      = some (natToDec t ++ ',' :: (gs "p=" ++ natToDec p)) := by
    rw [e1]
    exact dropLit_cons_append ',' (gs "t=") _
  have hD := scanUint_render (2 ^ 32) t ht
    (',' :: (gs "p=" ++ natToDec p)) (hcomma _)
  have hE : dropLit (gs ",p=") (',' :: (gs "p=" ++ natToDec p))
      = some (natToDec p) := by
    rw [e2]
    exact dropLit_cons_append ',' (gs "p=") _
  simp only [scanParams, hA, hB, hC, hD, hE, hsu3]

theorem mem_alphabet_ne {c d : Char} (h : c ∈ b64Alphabet)
    (hd : d ∉ b64Alphabet) : c ≠ d := fun he => hd (he ▸ h)

theorem versionSegment_dollarFree : ∀ c ∈ versionSegment, c ≠ '$' := by
  intro c hc
  rcases List.mem_append.mp hc with hc | hc
  · revert hc
    revert c
    decide
  · exact isDigitCh_ne (natToDec_digits _ c hc) (by decide)

theorem paramsSegment_dollarFree (params : Argon2Params) :
    ∀ c ∈ paramsSegment params, c ≠ '$' := by
  intro c hc
  unfold paramsSegment at hc
  simp only [List.mem_append] at hc
  rcases hc with ((((hc | hc) | hc) | hc) | hc) | hc
  · revert hc; revert c; decide
  · exact isDigitCh_ne (natToDec_digits _ c hc) (by decide)
  · revert hc; revert c; decide
  · exact isDigitCh_ne (natToDec_digits _ c hc) (by decide)
  · revert hc; revert c; decide
  · exact isDigitCh_ne (natToDec_digits _ c hc) (by decide)

theorem b64RawStd_dollarFree (l : List Nat) : ∀ c ∈ b64RawStd l, c ≠ '$' :=
  fun c hc => mem_alphabet_ne (b64RawStd_mem_alphabet l c hc) (by decide)

theorem encodeHash_split (params : Argon2Params) (salt hash : List Nat) :
    splitOnChar '$' (encodeHash params salt hash)
      = [[], gs "argon2id", versionSegment, paramsSegment params,
         b64RawStd salt, b64RawStd hash] := by
  have hshape : encodeHash params salt hash
      = '$' :: (gs "argon2id" ++ '$' :: (versionSegment ++ '$' ::
          (paramsSegment params ++ '$' :: (b64RawStd salt ++ '$' ::
            b64RawStd hash)))) := by
    unfold encodeHash
    rw [show gs "$" = ['$'] from rfl]
    simp [List.append_assoc]
  rw [hshape]
  rw [show splitOnChar '$' ('$' :: (gs "argon2id" ++ '$' :: (versionSegment ++
      '$' :: (paramsSegment params ++ '$' :: (b64RawStd salt ++ '$' ::
        b64RawStd hash)))))
    = [] :: splitOnChar '$' (gs "argon2id" ++ '$' :: (versionSegment ++ '$' ::
        (paramsSegment params ++ '$' :: (b64RawStd salt ++ '$' ::
          b64RawStd hash)))) from by simp [splitOnChar]]
  rw [splitOnChar_append '$' (gs "argon2id") _ (by decide)]
  rw [splitOnChar_append '$' versionSegment _ versionSegment_dollarFree]
  rw [splitOnChar_append '$' (paramsSegment params) _
    (paramsSegment_dollarFree params)]
  rw [splitOnChar_append '$' (b64RawStd salt) _ (b64RawStd_dollarFree salt)]
  rw [splitOnChar_sepFree '$' (b64RawStd hash) (b64RawStd_dollarFree hash)]

theorem decodeHash_encodeHash (params : Argon2Params) (salt hash : List Nat)
    (hsalt : Bytes salt) (hhash : Bytes hash)
    (hm : params.Memory < 2 ^ 32) (ht : params.Iterations < 2 ^ 32)
    (hp : params.Parallelism < 2 ^ 8) :
    decodeHash (encodeHash params salt hash)
      = .ok (withLengths params salt.length hash.length, salt, hash) := by
  have hver : scanVersion versionSegment = some ((19 : Nat) : Int) :=
    scanVersion_render 19 (by norm_num)
  have hpar : scanParams (paramsSegment params)
      = some (params.Memory, params.Iterations, params.Parallelism) :=
    scanParams_render params.Memory params.Iterations params.Parallelism hm ht hp
  unfold decodeHash
  rw [encodeHash_split]
  simp only [hver, hpar, b64RawStdDec_b64RawStd salt hsalt,
    b64RawStdDec_b64RawStd hash hhash]
  norm_num [argon2Version, withLengths]

theorem decodeHash_wrong_segments (s : GoStr)
    (h : (splitOnChar '$' s).length ≠ 6) : decodeHash s = .error .invalidHash := by
  unfold decodeHash
  rcases hs : splitOnChar '$' s with _ | ⟨p0, _ | ⟨p1, _ | ⟨p2, _ | ⟨p3, _ |
    ⟨p4, _ | ⟨p5, _ | ⟨p6, rest⟩⟩⟩⟩⟩⟩⟩ <;>
    first
      | rfl
      | (rw [hs] at h; simp at h)

theorem decodeHash_wrong_alg (s p0 alg p2 p3 p4 p5 : GoStr)
    (hs : splitOnChar '$' s = [p0, alg, p2, p3, p4, p5])
    (halg : alg ≠ gs "argon2id") : decodeHash s = .error .invalidHash := by
  unfold decodeHash
  rw [hs]
  simp [halg]

theorem decodeHash_wrong_version (s p0 p3 p4 p5 : GoStr) (v : Nat)
    (hs : splitOnChar '$' s
      = [p0, gs "argon2id", gs "v=" ++ natToDec v, p3, p4, p5])
    (hv63 : v < 2 ^ 63) (hv : v ≠ 19) :
    decodeHash s = .error .incompatibleVersion := by
  unfold decodeHash
  rw [hs]
  have hne : ((v : Nat) : Int) ≠ ((argon2Version : Nat) : Int) := by
    simp only [argon2Version]
    omega
  simp [scanVersion_render v hv63, hne]

/-- C7: for every input string, `decodeHash` is total (the embedding is a
total function, so it cannot panic); a wrong segment count or a wrong algorithm
identifier yields `ErrInvalidHash`; a parseable version marker different from
`argon2.Version` yields `ErrIncompatibleVersion`; and decoding a hash validly
produced by `HashPassword` recovers exactly the memory, iteration,
parallelism, salt-length and key-length parameters used to produce it. -/
theorem C7_decodeHash_robust :
    (∀ s : GoStr, (splitOnChar '$' s).length ≠ 6 →
      decodeHash s = .error .invalidHash)
  ∧ (∀ s p0 alg p2 p3 p4 p5 : GoStr,
      splitOnChar '$' s = [p0, alg, p2, p3, p4, p5] → alg ≠ gs "argon2id" →
      decodeHash s = .error .invalidHash)
  ∧ (∀ (s p0 p3 p4 p5 : GoStr) (v : Nat),
      splitOnChar '$' s
        = [p0, gs "argon2id", gs "v=" ++ natToDec v, p3, p4, p5] →
      v < 2 ^ 63 → v ≠ 19 → decodeHash s = .error .incompatibleVersion)
  ∧ (∀ (idKey : IDKeyFun) (password : GoStr) (params : Argon2Params)
      (salt : List Nat),
      Bytes salt →
      Bytes (idKey password salt params.Iterations params.Memory
        params.Parallelism params.KeyLength) →
      salt.length = params.SaltLength →
      (idKey password salt params.Iterations params.Memory params.Parallelism
        params.KeyLength).length = params.KeyLength →
      params.Memory < 2 ^ 32 → params.Iterations < 2 ^ 32 →
      params.Parallelism < 2 ^ 8 →
      decodeHash (HashPassword idKey password (some params) salt)
        = .ok (params, salt,
            idKey password salt params.Iterations params.Memory
              params.Parallelism params.KeyLength)) := by
  refine ⟨decodeHash_wrong_segments, decodeHash_wrong_alg,
    decodeHash_wrong_version, ?_⟩
  intro idKey password params salt hb hbh hsl hkl hm ht hp
  show decodeHash (encodeHash params salt (idKey password salt
      params.Iterations params.Memory params.Parallelism params.KeyLength))
    = Except.ok (params, salt, idKey password salt params.Iterations
        params.Memory params.Parallelism params.KeyLength)
  rw [decodeHash_encodeHash params salt _ hb hbh hm ht hp, hsl, hkl]
  rcases params with ⟨M, I, P, SL, KL⟩
  rfl

theorem VerifyPassword_encodeHash (idKey : IDKeyFun) (pw2 : GoStr)
    (params : Argon2Params) (salt h : List Nat) (hs : Bytes salt)
    (hh : Bytes h) (hm : params.Memory < 2 ^ 32)
    (ht : params.Iterations < 2 ^ 32) (hp : params.Parallelism < 2 ^ 8) :
    VerifyPassword idKey pw2 (encodeHash params salt h)
      = if h = idKey pw2 salt params.Iterations params.Memory
            params.Parallelism h.length
        then .ok true else .ok false := by
  unfold VerifyPassword
  rw [decodeHash_encodeHash params salt h hs hh hm ht hp]
  by_cases he : h = idKey pw2 salt params.Iterations params.Memory
      params.Parallelism h.length
  · simp [withLengths, constantTimeCompare, ← he]
  · simp only [withLengths]
    simp [constantTimeCompare, he]

theorem encodeHash_inj_salt (params : Argon2Params)
    {salt1 salt2 hash1 hash2 : List Nat} (h1 : Bytes salt1) (h2 : Bytes salt2)
    (hlen : salt1.length = salt2.length)
    (he : encodeHash params salt1 hash1 = encodeHash params salt2 hash2) :
    salt1 = salt2 := by
  unfold encodeHash at he
  simp only [List.append_assoc] at he
  have he1 := List.append_cancel_left he
  have he2 := List.append_cancel_left he1
  have he3 := List.append_cancel_left he2
  have he4 := List.append_cancel_left he3
  have he5 := List.append_cancel_left he4
  have he6 := List.append_cancel_left he5
  have he7 := List.append_cancel_left he6
  have hlen64 : (b64RawStd salt1).length = (b64RawStd salt2).length := by
    rw [b64RawStd_length, b64RawStd_length, hlen]
  exact b64RawStd_injOn h1 h2 (List.append_inj he7 hlen64).1

/-- C3: for every password and parameter set (default via `none`, or
custom), `VerifyPassword` accepts the string produced by `HashPassword` for
that password; a different password whose derived key differs (Argon2id
collision-freeness, a hypothesis on the external primitive) is rejected with
`match = false` and no error; and hashing the same password with two
distinct equal-length salts yields encoded strings that are not byte-equal
while both still verify. -/
theorem C3_hash_verify_roundtrip (idKey : IDKeyFun) (password other : GoStr)
    (paramsOpt : Option Argon2Params) (salt1 salt2 : List Nat)
    (params : Argon2Params) (hP : params = paramsOpt.getD DefaultArgon2Params)
    (hs1 : Bytes salt1) (hs2 : Bytes salt2)
    (hh1 : Bytes (idKey password salt1 params.Iterations params.Memory
      params.Parallelism params.KeyLength))
    (hh2 : Bytes (idKey password salt2 params.Iterations params.Memory
      params.Parallelism params.KeyLength))
    (hk1 : (idKey password salt1 params.Iterations params.Memory
      params.Parallelism params.KeyLength).length = params.KeyLength)
    (hk2 : (idKey password salt2 params.Iterations params.Memory
      params.Parallelism params.KeyLength).length = params.KeyLength)
    (hm : params.Memory < 2 ^ 32) (ht : params.Iterations < 2 ^ 32)
    (hp : params.Parallelism < 2 ^ 8) :
    VerifyPassword idKey password (HashPassword idKey password paramsOpt salt1)
      = .ok true
  ∧ (idKey other salt1 params.Iterations params.Memory params.Parallelism
        params.KeyLength
      ≠ idKey password salt1 params.Iterations params.Memory params.Parallelism
        params.KeyLength →
     VerifyPassword idKey other (HashPassword idKey password paramsOpt salt1)
       = .ok false)
  ∧ (salt1 ≠ salt2 → salt1.length = salt2.length →
     HashPassword idKey password paramsOpt salt1
       ≠ HashPassword idKey password paramsOpt salt2
     ∧ VerifyPassword idKey password
         (HashPassword idKey password paramsOpt salt2) = .ok true) := by
  have hHP1 : HashPassword idKey password paramsOpt salt1
      = encodeHash params salt1 (idKey password salt1 params.Iterations
          params.Memory params.Parallelism params.KeyLength) := by
    rw [HashPassword, hP]
  have hHP2 : HashPassword idKey password paramsOpt salt2
      = encodeHash params salt2 (idKey password salt2 params.Iterations
          params.Memory params.Parallelism params.KeyLength) := by
    rw [HashPassword, hP]
  refine ⟨?_, ?_, ?_⟩
  · rw [hHP1, VerifyPassword_encodeHash idKey password params salt1 _ hs1 hh1
      hm ht hp, hk1, if_pos rfl]
  · intro hne
    rw [hHP1, VerifyPassword_encodeHash idKey other params salt1 _ hs1 hh1
      hm ht hp, hk1, if_neg (fun hcon => hne hcon.symm)]
  · intro hsne hslen
    refine ⟨?_, ?_⟩
    · rw [hHP1, hHP2]
      intro hcon
      exact hsne (encodeHash_inj_salt params hs1 hs2 hslen hcon)
    · rw [hHP2, VerifyPassword_encodeHash idKey password params salt2 _ hs2 hh2
        hm ht hp, hk2, if_pos rfl]

/-- Concrete key-derivation stand-in used by witnesses: one byte decided by
the password. -/
def wIdKey : IDKeyFun := fun pw _ _ _ _ _ => if pw = gs "a" then [1] else [2]

/-- Concrete parameter set used by witnesses. -/
def wParams : Argon2Params :=
  { Memory := 1, Iterations := 1, Parallelism := 1, SaltLength := 2
    KeyLength := 1 }

/-- Concrete salts used by witnesses. -/
def wSalt1 : List Nat := [0, 0]

/-- Concrete second salt used by witnesses. -/
def wSalt2 : List Nat := [0, 1]

/-- Witness for C3 at concrete inputs. -/
theorem C3_witness :
    VerifyPassword wIdKey (gs "a") (HashPassword wIdKey (gs "a")
      (some wParams) wSalt1) = .ok true
  ∧ VerifyPassword wIdKey (gs "b") (HashPassword wIdKey (gs "a")
      (some wParams) wSalt1) = .ok false
  ∧ HashPassword wIdKey (gs "a") (some wParams) wSalt1
      ≠ HashPassword wIdKey (gs "a") (some wParams) wSalt2
  ∧ VerifyPassword wIdKey (gs "a") (HashPassword wIdKey (gs "a")
      (some wParams) wSalt2) = .ok true := by
  have h := C3_hash_verify_roundtrip wIdKey (gs "a") (gs "b") (some wParams)
    wSalt1 wSalt2 wParams rfl (by decide) (by decide) (by decide) (by decide)
    (by decide) (by decide) (by decide) (by decide) (by decide)
  have h3 := h.2.2 (by decide) (by decide)
  exact ⟨h.1, h.2.1 (by decide), h3.1, h3.2⟩

/-- Witness for C7 at concrete inputs. -/
theorem C7_witness :
    decodeHash (gs "abc") = .error .invalidHash
  ∧ decodeHash (gs "$argon2i$v=19$m=1,t=1,p=1$AA$AA") = .error .invalidHash
  ∧ decodeHash (gs "$argon2id$v=18$m=1,t=1,p=1$AA$AA")
      = .error .incompatibleVersion
  ∧ decodeHash (HashPassword wIdKey (gs "a") (some wParams) wSalt1)
      = .ok (wParams, wSalt1, [1]) := by
  refine ⟨?_, ?_, ?_, ?_⟩
  · exact C7_decodeHash_robust.1 _ (by decide)
  · exact C7_decodeHash_robust.2.1 _ [] (gs "argon2i") (gs "v=19")
      (gs "m=1,t=1,p=1") (gs "AA") (gs "AA") (by decide) (by decide)
  · exact C7_decodeHash_robust.2.2.1 _ [] (gs "m=1,t=1,p=1") (gs "AA")
      (gs "AA") 18 (by decide) (by decide) (by decide)
  · have h := C7_decodeHash_robust.2.2.2 wIdKey (gs "a") wParams wSalt1
      (by decide) (by decide) (by decide) (by decide) (by decide) (by decide)
      (by decide)
    simpa using h

/-! ## CSRF protection (`pkg/security` double-submit scheme)

Embeds `CSRFProtection.generateToken`, `validateToken` and `Middleware`.
The keyed HMAC-SHA256 (`crypto/hmac` with the configured key) is an external
primitive, passed as a function parameter from payload to MAC bytes; the
random draw and the clock inside `generateToken` are explicit arguments. -/

/-- Keyed HMAC-SHA256 signature: payload string to MAC bytes. -/
abbrev MacFun := GoStr → List Nat

/-- Embeds the two CSRF error values. -/
inductive CsrfError where
  | missingToken
  | invalidToken
  deriving DecidableEq, Repr

/-- Embeds `generateToken`: `<randomB64>|<timestamp>|<signatureB64>` with
standard (padded) base64. -/
def generateToken (mac : MacFun) (randomBytes : List Nat)
    (timestamp : Nat) : GoStr :=
  let randomString := b64Std randomBytes
  let payload := randomString ++ gs "|" ++ natToDec timestamp
  let signature := b64Std (mac payload)
  payload ++ gs "|" ++ signature

/-- Embeds `validateToken`: reject empty input, split on `|` into exactly
three parts, re-sign `<random>|<timestamp>` and compare signatures
(`hmac.Equal` is plain byte equality in constant time). -/
def validateToken (mac : MacFun) (token : GoStr) : Except CsrfError Unit :=
  if token = [] then .error .missingToken
  else
    match splitOnChar '|' token with
    | [randomStr, timestampStr, receivedSignature] =>
      let payload := randomStr ++ gs "|" ++ timestampStr
      let expectedSignature := b64Std (mac payload)
      if receivedSignature = expectedSignature then .ok ()
      else .error .invalidToken
    | _ => .error .invalidToken

/-- The parts of an HTTP request the CSRF middleware reads.  `CookieValue`
is `none` when `r.Cookie` errors (cookie absent); header and form values are
`[]` when absent. -/
structure CsrfRequest where
  Method : GoStr
  CookieValue : Option GoStr
  HeaderValue : GoStr
  FormValue : GoStr
  deriving DecidableEq, Repr

/-- Outcome of the CSRF middleware: `passed c` reaches the next handler
(`c` is the fresh `csrf_token` cookie set on the response, if any);
`forbidden msg` is the `http.Error(w, msg, 403)` rejection. -/
inductive CsrfOutcome where
  | passed (setCookie : Option GoStr)
  | forbidden (msg : GoStr)
  deriving DecidableEq, Repr

/-- Embeds `CSRFProtection.Middleware`, with the fresh token generated in
the safe-method branch supplied as an argument (its random draw is assumed
to succeed). -/
def csrfMiddleware (mac : MacFun) (freshToken : GoStr)
    (r : CsrfRequest) : CsrfOutcome :=
  if r.Method = gs "GET" ∨ r.Method = gs "HEAD" ∨ r.Method = gs "OPTIONS" ∨
      r.Method = gs "TRACE" then
    if r.CookieValue.getD [] = [] then .passed (some freshToken)
    else .passed none
  else
    if r.CookieValue.getD [] = [] then .forbidden (gs "CSRF token missing")
    else
      let validate := fun (token : GoStr) =>
        match validateToken mac token with
        | .error _ => CsrfOutcome.forbidden (gs "Invalid CSRF token")
        | .ok _ => CsrfOutcome.passed none
      if r.HeaderValue ≠ [] then validate r.HeaderValue
      else if r.FormValue ≠ [] then validate r.FormValue
      else .forbidden (gs "CSRF token missing")

theorem b64Std_pipeFree (l : List Nat) : ∀ c ∈ b64Std l, c ≠ '|' := by
  intro c hc
  unfold b64Std at hc
  rcases List.mem_append.mp hc with hc | hc
  · exact mem_alphabet_ne (b64RawStd_mem_alphabet l c hc) (by decide)
  · rw [List.eq_of_mem_replicate hc]
    decide

theorem natToDec_pipeFree (n : Nat) : ∀ c ∈ natToDec n, c ≠ '|' :=
  fun c hc => isDigitCh_ne (natToDec_digits n c hc) (by decide)

theorem append_pipe_ne_nil (a b : GoStr) : a ++ '|' :: b ≠ [] := by
  cases a <;> simp

/-- C9: `validateToken` verifies only the HMAC-SHA256 signature over the
`<randomB64>|<timestamp>` payload; the embedded timestamp's value is never
inspected, so a validly signed token with an arbitrary (in particular,
arbitrarily old) timestamp is accepted — no expiry or freshness check
exists at validation. -/
theorem C9_validateToken_ignores_timestamp (mac : MacFun)
    (randomBytes : List Nat) (timestamp : Nat) :
    validateToken mac (generateToken mac randomBytes timestamp) = .ok () := by
  have hshape : generateToken mac randomBytes timestamp
      = b64Std randomBytes ++ '|' :: (natToDec timestamp ++ '|' ::
          b64Std (mac (b64Std randomBytes ++ gs "|" ++ natToDec timestamp))) := by
    unfold generateToken
    rw [show gs "|" = ['|'] from rfl]
    simp [List.append_assoc]
  rw [hshape]
  unfold validateToken
  rw [if_neg (append_pipe_ne_nil _ _)]
  rw [splitOnChar_append '|' (b64Std randomBytes) _ (b64Std_pipeFree _)]
  rw [splitOnChar_append '|' (natToDec timestamp) _ (natToDec_pipeFree _)]
  rw [splitOnChar_sepFree '|' (b64Std (mac (b64Std randomBytes ++ gs "|" ++
    natToDec timestamp))) (b64Std_pipeFree _)]
  simp

/-- MAC stand-in used by the C1 counterexample: the payload's character
codes (injective, so distinct payloads have distinct signatures). -/
def c1Mac : MacFun := fun p => p.map Char.toNat

/-- A validly signed token (random byte 0, timestamp 1). -/
def c1TokenA : GoStr := generateToken c1Mac [0] 1

/-- A different validly signed token (random byte 1, timestamp 2). -/
def c1TokenB : GoStr := generateToken c1Mac [1] 2

/-- C1 counterexample: a POST carrying a `csrf_token` cookie and an
`X-CSRF-Token` header whose token differs from the cookie's token is passed
through by the middleware (not rejected 403): the supplied token is only
checked for a valid signature, never compared against the cookie. -/
theorem C1_counterexample :
    c1TokenA ≠ c1TokenB
  ∧ csrfMiddleware c1Mac []
      { Method := gs "POST"
        CookieValue := some c1TokenB
        HeaderValue := c1TokenA
        FormValue := [] } = .passed none := by decide

/-- C1 (amended): for every unsafe-method request carrying a nonempty
`csrf_token` cookie and supplying a nonempty `X-CSRF-Token` header, the
middleware rejects with 403 exactly when `validateToken` rejects the header
token under the configured key's HMAC, and passes it through exactly when
the header token is validly signed — the supplied token is never compared
against the cookie's token value. -/
theorem C1_csrf_middleware_checks_signature_only (mac : MacFun)
    (fresh : GoStr) (r : CsrfRequest)
    (hmethod : ¬(r.Method = gs "GET" ∨ r.Method = gs "HEAD" ∨
      r.Method = gs "OPTIONS" ∨ r.Method = gs "TRACE"))
    (hcookie : r.CookieValue.getD [] ≠ [])
    (hheader : r.HeaderValue ≠ []) :
    (csrfMiddleware mac fresh r = .forbidden (gs "Invalid CSRF token")
      ↔ validateToken mac r.HeaderValue ≠ .ok ())
  ∧ (csrfMiddleware mac fresh r = .passed none
      ↔ validateToken mac r.HeaderValue = .ok ()) := by
  unfold csrfMiddleware
  rw [if_neg hmethod, if_neg hcookie, if_pos hheader]
  rcases hval : validateToken mac r.HeaderValue with e | u
  · simp [hval]
  · simp [hval]

/-- Witness for C1's amended theorem at concrete inputs: the validly signed
header token passes, a malformed header token is rejected 403. -/
theorem C1_witness :
    csrfMiddleware c1Mac []
      { Method := gs "POST"
        CookieValue := some c1TokenB
        HeaderValue := c1TokenA
        FormValue := [] } = .passed none
  ∧ csrfMiddleware c1Mac []
      { Method := gs "POST"
        CookieValue := some c1TokenB
        HeaderValue := gs "x|y|z"
        FormValue := [] } = .forbidden (gs "Invalid CSRF token") := by
  have h1 := C1_csrf_middleware_checks_signature_only c1Mac []
    { Method := gs "POST"
      CookieValue := some c1TokenB
      HeaderValue := c1TokenA
      FormValue := [] } (by decide) (by decide) (by decide)
  have h2 := C1_csrf_middleware_checks_signature_only c1Mac []
    { Method := gs "POST"
      CookieValue := some c1TokenB
      HeaderValue := gs "x|y|z"
      FormValue := [] } (by decide) (by decide) (by decide)
  exact ⟨h1.2.mpr (by decide), h2.1.mpr (by decide)⟩

/-! ## Security headers middleware (`pkg/security/headers.go`) -/

/-- Embeds Go `net/http.StatusText` (standard library): the canonical
reason phrase for a known status code, `""` otherwise. -/
def statusText (code : Int) : GoStr :=
  if code = 100 then gs "Continue"
  else if code = 101 then gs "Switching Protocols"
  else if code = 102 then gs "Processing"
  else if code = 103 then gs "Early Hints"
  else if code = 200 then gs "OK"
  else if code = 201 then gs "Created"
  else if code = 202 then gs "Accepted"
  else if code = 203 then gs "Non-Authoritative Information"
  else if code = 204 then gs "No Content"
  else if code = 205 then gs "Reset Content"
  else if code = 206 then gs "Partial Content"
  else if code = 207 then gs "Multi-Status"
  else if code = 208 then gs "Already Reported"
  else if code = 226 then gs "IM Used"
  else if code = 300 then gs "Multiple Choices"
  else if code = 301 then gs "Moved Permanently"
  else if code = 302 then gs "Found"
  else if code = 303 then gs "See Other"
  else if code = 304 then gs "Not Modified"
  else if code = 305 then gs "Use Proxy"
  else if code = 307 then gs "Temporary Redirect"
  else if code = 308 then gs "Permanent Redirect"
  else if code = 400 then gs "Bad Request"
  else if code = 401 then gs "Unauthorized"
  else if code = 402 then gs "Payment Required"
  else if code = 403 then gs "Forbidden"
  else if code = 404 then gs "Not Found"
  else if code = 405 then gs "Method Not Allowed"
  else if code = 406 then gs "Not Acceptable"
  else if code = 407 then gs "Proxy Authentication Required"
  else if code = 408 then gs "Request Timeout"
  else if code = 409 then gs "Conflict"
  else if code = 410 then gs "Gone"
  else if code = 411 then gs "Length Required"
  else if code = 412 then gs "Precondition Failed"
  else if code = 413 then gs "Request Entity Too Large"
  else if code = 414 then gs "Request URI Too Long"
  else if code = 415 then gs "Unsupported Media Type"
  else if code = 416 then gs "Requested Range Not Satisfiable"
  else if code = 417 then gs "Expectation Failed"
  else if code = 418 then gs "I" ++ '\'' :: gs "m a teapot"
  else if code = 421 then gs "Misdirected Request"
  else if code = 422 then gs "Unprocessable Entity"
  else if code = 423 then gs "Locked"
  else if code = 424 then gs "Failed Dependency"
  else if code = 425 then gs "Too Early"
  else if code = 426 then gs "Upgrade Required"
  else if code = 428 then gs "Precondition Required"
  else if code = 429 then gs "Too Many Requests"
  else if code = 431 then gs "Request Header Fields Too Large"
  else if code = 451 then gs "Unavailable For Legal Reasons"
  else if code = 500 then gs "Internal Server Error"
  else if code = 501 then gs "Not Implemented"
  else if code = 502 then gs "Bad Gateway"
  else if code = 503 then gs "Service Unavailable"
  else if code = 504 then gs "Gateway Timeout"
  else if code = 505 then gs "HTTP Version Not Supported"
  else if code = 506 then gs "Variant Also Negotiates"
  else if code = 507 then gs "Insufficient Storage"
  else if code = 508 then gs "Loop Detected"
  else if code = 510 then gs "Not Extended"
  else if code = 511 then gs "Network Authentication Required"
  else gs ""

/-- Embeds the `security.HeadersConfig` struct. -/
structure HeadersConfig where
  HSTS : Bool
  HSTSMaxAge : Int
  HSTSIncludeSubdomains : Bool
  HSTSPreload : Bool
  ContentSecurityPolicy : GoStr
  XFrameOptions : GoStr
  XContentTypeOptions : GoStr
  deriving DecidableEq, Repr

/-- Embeds `DefaultHeadersConfig`. -/
def DefaultHeadersConfig : HeadersConfig :=
  { HSTS := true
    HSTSMaxAge := 31536000
    HSTSIncludeSubdomains := true
    HSTSPreload := true
    ContentSecurityPolicy := gs "default-src 'self'; script-src 'self'; img-src 'self' data:; style-src 'self' 'unsafe-inline'; connect-src 'self'; frame-ancestors 'none'; form-action 'self'; base-uri 'self'; object-src 'none'"
    XFrameOptions := gs "DENY"
    XContentTypeOptions := gs "nosniff" }

/-- Embeds the `Strict-Transport-Security` value construction inside
`SecurityHeaders` — including the source's `http.StatusText(config.HSTSMaxAge)`
call in place of an integer-to-string conversion. -/
def hstsValue (config : HeadersConfig) : GoStr :=
  if config.HSTSMaxAge > 0 then
    gs "max-age=" ++ statusText config.HSTSMaxAge ++
    (if config.HSTSIncludeSubdomains then gs "; includeSubDomains" else []) ++
    (if config.HSTSPreload then gs "; preload" else [])
  else []

/-- Embeds the `SecurityHeaders` middleware as the ordered list of
`(name, value)` pairs set on every response. -/
def securityHeaders (config : HeadersConfig) : List (GoStr × GoStr) :=
  (if config.HSTS ∧ hstsValue config ≠ []
    then [(gs "Strict-Transport-Security", hstsValue config)] else []) ++
  (if config.ContentSecurityPolicy ≠ []
    then [(gs "Content-Security-Policy", config.ContentSecurityPolicy)] else []) ++
  (if config.XFrameOptions ≠ []
    then [(gs "X-Frame-Options", config.XFrameOptions)] else []) ++
  (if config.XContentTypeOptions ≠ []
    then [(gs "X-Content-Type-Options", config.XContentTypeOptions)] else []) ++
  [(gs "Referrer-Policy", gs "strict-origin-when-cross-origin"),
   (gs "X-XSS-Protection", gs "1; mode=block"),
   (gs "Permissions-Policy", gs "accelerometer=(), camera=(), geolocation=(), gyroscope=(), magnetometer=(), microphone=(), payment=(), usb=()"),
   (gs "Cache-Control", gs "no-store, max-age=0"),
   (gs "Pragma", gs "no-cache"),
   (gs "X-Permitted-Cross-Domain-Policies", gs "none")]

/-- C2 (code evaluation at the claim's failing input): with HSTS enabled
and the default max-age 31536000, the code formats the max-age through
`http.StatusText` — which returns `""` for 31536000 — so every response
carries `Strict-Transport-Security: max-age=; includeSubDomains; preload`,
not the claimed `max-age=31536000; includeSubDomains; preload`. -/
theorem C2_hsts_value_bug :
    hstsValue DefaultHeadersConfig = gs "max-age=; includeSubDomains; preload"
  ∧ (gs "Strict-Transport-Security",
      gs "max-age=; includeSubDomains; preload")
        ∈ securityHeaders DefaultHeadersConfig
  ∧ hstsValue DefaultHeadersConfig
      ≠ gs "max-age=31536000; includeSubDomains; preload" := by decide

/-! ## JWT token service (`pkg/auth/jwt.go`)

The `golang-jwt/v5` primitives are modelled per their documented behaviour:
a signed token is its claims plus a signature over them; parsing verifies
the signature for the supplied secret and then validates the registered
time claims (valid while `now < exp` and `nbf ≤ now`).  The HMAC-SHA256
signature itself is a function parameter; the clock is explicit. -/

/-- Embeds the token-type constants. -/
def TokenTypeAccess : GoStr := gs "access"

/-- Embeds `TokenTypeRefresh`. -/
def TokenTypeRefresh : GoStr := gs "refresh"

/-- Embeds `TokenTypeReset`. -/
def TokenTypeReset : GoStr := gs "reset"

/-- Embeds the `auth.JWTClaims` struct (custom claims plus the registered
claims `generateToken` sets; times in unix seconds). -/
structure JWTClaims where
  UserID : GoStr
  Email : GoStr
  Role : GoStr
  TokenType : GoStr
  ExpiresAt : Int
  IssuedAt : Int
  NotBefore : Int
  Issuer : GoStr
  Subject : GoStr
  Audience : List GoStr
  deriving DecidableEq, Repr

/-- HMAC-SHA256 JWT signing (external library primitive): secret and claims
to signature bytes. -/
abbrev JwtSigFun := GoStr → JWTClaims → List Nat

/-- A token as `SignedString` produces it: claims payload plus signature. -/
structure SignedToken where
  Claims : JWTClaims
  Sig : List Nat
  deriving DecidableEq, Repr

/-- Embeds the `auth` package's JWT error values. -/
inductive JwtError where
  | tokenExpired
  | invalidToken
  | wrongTokenType
  deriving DecidableEq, Repr

/-- Embeds the fields of `auth.JWTConfig` used on the token paths
(lifetimes in seconds). -/
structure JWTConfig where
  Secret : GoStr
  AccessTokenExpiry : Int
  RefreshTokenExpiry : Int
  ResetTokenExpiry : Int
  Issuer : GoStr
  Audience : GoStr
  deriving DecidableEq, Repr

/-- Embeds `JWT.generateToken` with the clock explicit. -/
def jwtGenerateToken (sigOf : JwtSigFun) (cfg : JWTConfig) (now : Int)
    (userID email role tokenType : GoStr) (expiry : Int) : SignedToken :=
  let claims : JWTClaims :=
    { UserID := userID
      Email := email
      Role := role
      TokenType := tokenType
      ExpiresAt := now + expiry
      IssuedAt := now
      NotBefore := now
      Issuer := cfg.Issuer
      Subject := userID
      Audience := [cfg.Audience] }
  { Claims := claims, Sig := sigOf cfg.Secret claims }

/-- Embeds `JWT.GenerateAccessToken`. -/
def GenerateAccessToken (sigOf : JwtSigFun) (cfg : JWTConfig) (now : Int)
    (userID email role : GoStr) : SignedToken :=
  jwtGenerateToken sigOf cfg now userID email role TokenTypeAccess
    cfg.AccessTokenExpiry

/-- Embeds `JWT.GenerateRefreshToken`. -/
def GenerateRefreshToken (sigOf : JwtSigFun) (cfg : JWTConfig) (now : Int)
    (userID email role : GoStr) : SignedToken :=
  jwtGenerateToken sigOf cfg now userID email role TokenTypeRefresh
    cfg.RefreshTokenExpiry

/-- Embeds `JWT.ParseToken`: `jwt.ParseWithClaims` (signature check for this
secret, then expiry — strict `now < exp` — and not-before), with the
library's expiry error translated to `ErrTokenExpired` and every other
failure to `ErrInvalidToken`. -/
def ParseToken (sigOf : JwtSigFun) (cfg : JWTConfig) (now : Int)
    (t : SignedToken) : Except JwtError JWTClaims :=
  if t.Sig ≠ sigOf cfg.Secret t.Claims then .error .invalidToken
  else if now ≥ t.Claims.ExpiresAt then .error .tokenExpired
  else if now < t.Claims.NotBefore then .error .invalidToken
  else .ok t.Claims

/-- Embeds `JWT.ValidateAccessToken`: parse, then require the `access`
token type. -/
def ValidateAccessToken (sigOf : JwtSigFun) (cfg : JWTConfig) (now : Int)
    (t : SignedToken) : Except JwtError JWTClaims :=
  match ParseToken sigOf cfg now t with
  | .error e => .error e
  | .ok claims =>
    if claims.TokenType ≠ TokenTypeAccess then .error .wrongTokenType
    else .ok claims

/-- Embeds `JWT.ValidateRefreshToken`: parse, then require the `refresh`
token type. -/
def ValidateRefreshToken (sigOf : JwtSigFun) (cfg : JWTConfig) (now : Int)
    (t : SignedToken) : Except JwtError JWTClaims :=
  match ParseToken sigOf cfg now t with
  | .error e => .error e
  | .ok claims =>
    if claims.TokenType ≠ TokenTypeRefresh then .error .wrongTokenType
    else .ok claims

/-- C4: a freshly generated access token validates via
`ValidateAccessToken` (within its validity window) with claims of type
`access`; the same token fails `ValidateRefreshToken` with
`WrongTokenType`; any validly signed token whose expiry lies in the past
fails parsing and both validators with `ExpiredToken`; and a token checked
under a different secret (whose HMAC over these claims differs — a
collision-freeness hypothesis on the external primitive) fails with
`InvalidToken`. -/
theorem C4_jwt_lifecycle (sigOf : JwtSigFun) (cfg : JWTConfig)
    (now now2 : Int) (userID email role : GoStr)
    (tok : SignedToken)
    (htok : tok = GenerateAccessToken sigOf cfg now userID email role)
    (hnb : now ≤ now2) (hfresh : now2 < now + cfg.AccessTokenExpiry) :
    (ValidateAccessToken sigOf cfg now2 tok = .ok tok.Claims
      ∧ tok.Claims.TokenType = TokenTypeAccess)
  ∧ ValidateRefreshToken sigOf cfg now2 tok = .error .wrongTokenType
  ∧ (∀ t : SignedToken, t.Sig = sigOf cfg.Secret t.Claims →
      t.Claims.ExpiresAt < now2 →
      ParseToken sigOf cfg now2 t = .error .tokenExpired
      ∧ ValidateAccessToken sigOf cfg now2 t = .error .tokenExpired
      ∧ ValidateRefreshToken sigOf cfg now2 t = .error .tokenExpired)
  ∧ (∀ cfg2 : JWTConfig,
      sigOf cfg2.Secret tok.Claims ≠ sigOf cfg.Secret tok.Claims →
      ParseToken sigOf cfg2 now2 tok = .error .invalidToken
      ∧ ValidateAccessToken sigOf cfg2 now2 tok = .error .invalidToken) := by
  subst htok
  have hparse : ParseToken sigOf cfg now2
      (GenerateAccessToken sigOf cfg now userID email role)
      = .ok (GenerateAccessToken sigOf cfg now userID email role).Claims := by
    unfold ParseToken GenerateAccessToken jwtGenerateToken
    rw [if_neg (by simp)]
    rw [if_neg (by simp only []; omega)]
    rw [if_neg (by simp only []; omega)]
  refine ⟨⟨?_, rfl⟩, ?_, ?_, ?_⟩
  · unfold ValidateAccessToken
    rw [hparse]
    simp [GenerateAccessToken, jwtGenerateToken]
  · unfold ValidateRefreshToken
    rw [hparse]
    have hne : TokenTypeAccess ≠ TokenTypeRefresh := by decide
    simp [GenerateAccessToken, jwtGenerateToken, hne]
  · intro t hsig hexp
    have hpt : ParseToken sigOf cfg now2 t = .error .tokenExpired := by
      unfold ParseToken
      rw [if_neg (by simp [hsig]), if_pos (by omega)]
    exact ⟨hpt, by unfold ValidateAccessToken; rw [hpt],
      by unfold ValidateRefreshToken; rw [hpt]⟩
  · intro cfg2 hne
    have hpt : ParseToken sigOf cfg2 now2
        (GenerateAccessToken sigOf cfg now userID email role)
        = .error .invalidToken := by
      unfold ParseToken
      rw [if_pos ?_]
      show (GenerateAccessToken sigOf cfg now userID email role).Sig
        ≠ sigOf cfg2.Secret (GenerateAccessToken sigOf cfg now userID
          email role).Claims
      intro hcon
      exact hne (by rw [← hcon]; rfl)
    exact ⟨hpt, by unfold ValidateAccessToken; rw [hpt]⟩

/-- Signature stand-in used by the C4 witness: the secret's length as a
one-byte signature (distinct-length secrets give distinct signatures). -/
def wSig : JwtSigFun := fun secret _ => [secret.length]

/-- JWT configuration used by the C4 witness. -/
def wCfg : JWTConfig :=
  { Secret := gs "s1"
    AccessTokenExpiry := 900
    RefreshTokenExpiry := 604800
    ResetTokenExpiry := 3600
    Issuer := gs "resume_generator"
    Audience := gs "resume_generator_users" }

/-- Second JWT configuration (different secret) used by the C4 witness. -/
def wCfg2 : JWTConfig :=
  { wCfg with Secret := gs "other-secret" }

/-- An expired, validly signed token used by the C4 witness. -/
def wExpiredToken : SignedToken :=
  GenerateAccessToken wSig wCfg (-1000) (gs "u") (gs "e") (gs "r")

/-- Witness for C4 at concrete inputs. -/
theorem C4_witness :
    (ValidateAccessToken wSig wCfg 1
        (GenerateAccessToken wSig wCfg 0 (gs "u") (gs "e") (gs "r"))
      = .ok (GenerateAccessToken wSig wCfg 0 (gs "u") (gs "e") (gs "r")).Claims)
  ∧ (ValidateRefreshToken wSig wCfg 1
        (GenerateAccessToken wSig wCfg 0 (gs "u") (gs "e") (gs "r"))
      = .error .wrongTokenType)
  ∧ ParseToken wSig wCfg 1 wExpiredToken = .error .tokenExpired
  ∧ (ParseToken wSig wCfg2 1
        (GenerateAccessToken wSig wCfg 0 (gs "u") (gs "e") (gs "r"))
      = .error .invalidToken) := by
  have h := C4_jwt_lifecycle wSig wCfg 0 1 (gs "u") (gs "e") (gs "r") _ rfl
    (by decide) (by decide)
  have hexp := h.2.2.1 wExpiredToken (by decide) (by decide)
  exact ⟨h.1.1, h.2.1, hexp.1, (h.2.2.2 wCfg2 (by decide)).1⟩

/-! ## Rate limiter (`pkg/security/ratelimit.go`)

The Redis sorted set for one key is its member scores (unix-second
timestamps; set semantics — `ZADD` of an existing member adds nothing) plus
the key's TTL.  Store communication failures are injected explicitly; a
failed round-trip leaves the store unchanged. -/

/-- One rate-limit key's state in the store. -/
structure RLEntry where
  Scores : List Int
  TTL : Option Int
  deriving DecidableEq, Repr

/-- The key-value store, as a map from key to entry. -/
def RedisState := GoStr → RLEntry

/-- Point update of the store. -/
def updateKey (st : RedisState) (key : GoStr) (e : RLEntry) : RedisState :=
  fun k => if k = key then e else st k

/-- Which store round-trips fail. -/
structure RedisFailures where
  RemFails : Bool
  CardFails : Bool
  AddFails : Bool
  ExpireFails : Bool
  deriving DecidableEq, Repr

/-- Embeds `ErrRateLimitExceeded`. -/
inductive RLErr where
  | rateLimitExceeded
  deriving DecidableEq, Repr

/-- Models Redis `ZREMRANGEBYSCORE key lo hi` on the member scores
(inclusive range). -/
def zremRange (scores : List Int) (lo hi : Int) : List Int :=
  scores.filter (fun s => !(decide (lo ≤ s) && decide (s ≤ hi)))

/-- Models Redis `ZADD` of one member (set semantics). -/
def zaddScore (scores : List Int) (s : Int) : List Int :=
  if s ∈ scores then scores else scores ++ [s]

/-- The request fields the limiter reads. -/
structure RLRequest where
  XForwardedFor : GoStr
  XRealIP : GoStr
  RemoteAddr : GoStr
  Path : GoStr
  deriving DecidableEq, Repr

/-- Models the host half of `net.SplitHostPort`: the part before the last
colon; an input without a colon makes `SplitHostPort` error, and
`getIPAddress` then falls back to the whole address (bracketed IPv6
literals are not modelled). -/
def splitHostPortHost (addr : GoStr) : GoStr :=
  match addr.reverse.dropWhile (fun c => c != ':') with
  | ':' :: restRev => restRev.reverse
  | _ => addr

/-- Embeds `getIPAddress`: first `X-Forwarded-For` entry (trimmed), else
`X-Real-IP`, else `RemoteAddr` stripped of its port. -/
def getIPAddress (r : RLRequest) : GoStr :=
  if r.XForwardedFor ≠ [] then
    trimSpace ((splitOnChar ',' r.XForwardedFor).headD [])
  else if r.XRealIP ≠ [] then r.XRealIP
  else splitHostPortHost r.RemoteAddr

/-- Embeds `RateLimiter.getLimitKey`: `ratelimit:<ip>:<path>`. -/
def getLimitKey (r : RLRequest) : GoStr :=
  gs "ratelimit:" ++ getIPAddress r ++ gs ":" ++ r.Path

/-- Embeds `RateLimiter.CheckRateLimit` (limit and interval from the
config, interval in seconds; the clock is explicit).  Returns the
`(count, error)` pair and the resulting store. -/
def CheckRateLimit (limit interval : Int) (st : RedisState)
    (fails : RedisFailures) (now : Int) (key : GoStr) :
    (Int × Option RLErr) × RedisState :=
  let windowStart := now - interval
  if fails.RemFails then ((0, none), st)
  else
    let st1 := updateKey st key
      { Scores := zremRange (st key).Scores 0 windowStart
        TTL := (st key).TTL }
    if fails.CardFails then ((0, none), st1)
    else
      let count : Int := (st1 key).Scores.length
      if count ≥ limit then ((count, some .rateLimitExceeded), st1)
      else
        let st2 :=
          if fails.AddFails then st1
          else updateKey st1 key
            { Scores := zaddScore (st1 key).Scores now
              TTL := (st1 key).TTL }
        let st3 :=
          if fails.ExpireFails then st2
          else updateKey st2 key
            { Scores := (st2 key).Scores, TTL := some (interval + 60) }
        ((count + 1, none), st3)

theorem updateKey_self (st : RedisState) (key : GoStr) (e : RLEntry) :
    updateKey st key e key = e := by simp [updateKey]

theorem updateKey_updateKey (st : RedisState) (key : GoStr)
    (e1 e2 : RLEntry) :
    updateKey (updateKey st key e1) key e2 = updateKey st key e2 := by
  funext k
  unfold updateKey
  by_cases h : k = key <;> simp [h]

/-- C5: `CheckRateLimit` on the request's `(client-IP, path)` key prunes
scores in `[0, now − interval]`; if the remaining count is at least the
limit it returns `(count, RateLimitExceeded)` without adding a member;
otherwise it adds the current timestamp, sets the key's expiry to
interval + 1 minute, and returns `(count + 1, no error)`; and when the
store round-trip fails during pruning or counting it returns `(0, no
error)` — the request is allowed. -/
theorem C5_checkRateLimit (limit interval : Int) (st : RedisState)
    (now : Int) (r : RLRequest) (key : GoStr) (hkey : key = getLimitKey r)
    (pruned : List Int)
    (hpruned : pruned = zremRange (st key).Scores 0 (now - interval))
    (fails : RedisFailures) :
    (fails.RemFails = true →
      CheckRateLimit limit interval st fails now key = ((0, none), st))
  ∧ (fails.RemFails = false → fails.CardFails = true →
      CheckRateLimit limit interval st fails now key
        = ((0, none), updateKey st key ⟨pruned, (st key).TTL⟩))
  ∧ (fails.RemFails = false → fails.CardFails = false →
      (pruned.length : Int) ≥ limit →
      CheckRateLimit limit interval st fails now key
        = (((pruned.length : Int), some .rateLimitExceeded),
           updateKey st key ⟨pruned, (st key).TTL⟩))
  ∧ (fails.RemFails = false → fails.CardFails = false →
      fails.AddFails = false → fails.ExpireFails = false →
      (pruned.length : Int) < limit →
      CheckRateLimit limit interval st fails now key
        = (((pruned.length : Int) + 1, none),
           updateKey st key ⟨zaddScore pruned now, some (interval + 60)⟩)) := by
  subst hpruned
  refine ⟨?_, ?_, ?_, ?_⟩
  · intro h1
    unfold CheckRateLimit
    rw [if_pos h1]
  · intro h1 h2
    unfold CheckRateLimit
    rw [if_neg (by simp [h1]), if_pos h2]
  · intro h1 h2 h3
    unfold CheckRateLimit
    simp only [h1, h2, Bool.false_eq_true, if_false, updateKey_self]
    rw [if_pos (by simpa using h3)]
  · intro h1 h2 h3 h4 h5
    unfold CheckRateLimit
    simp only [h1, h2, h3, h4, Bool.false_eq_true, if_false, updateKey_self,
      updateKey_updateKey]
    rw [if_neg (by simpa using not_le.mpr h5)]

/-- Empty store used by the C5 witness. -/
def wSt0 : RedisState := fun _ => { Scores := [], TTL := none }

/-- Store holding two in-window entries for every key, used by the C5
witness. -/
def wStFull : RedisState := fun _ => { Scores := [99, 98], TTL := none }

/-- No-failure injection used by the C5 witness. -/
def wNoFail : RedisFailures :=
  { RemFails := false, CardFails := false, AddFails := false
    ExpireFails := false }

/-- Request used by the C5 witness. -/
def wReq : RLRequest :=
  { XForwardedFor := [], XRealIP := [], RemoteAddr := gs "1.2.3.4:99"
    Path := gs "/login" }

/-- Witness for C5 at concrete inputs: below the limit the count comes back
incremented with no error; at the limit the call reports
`RateLimitExceeded` with the unchanged count. -/
theorem C5_witness :
    (CheckRateLimit 2 60 wSt0 wNoFail 100 (getLimitKey wReq)).1 = (1, none)
  ∧ (CheckRateLimit 2 60 wStFull wNoFail 100 (getLimitKey wReq)).1
      = (2, some .rateLimitExceeded) := by
  have h1 := (C5_checkRateLimit 2 60 wSt0 100 wReq _ rfl _ rfl
    wNoFail).2.2.2 rfl rfl rfl rfl (by decide)
  have h2 := (C5_checkRateLimit 2 60 wStFull 100 wReq _ rfl _ rfl
    wNoFail).2.2.1 rfl rfl (by decide)
  constructor
  · rw [h1]
    decide
  · rw [h2]
    decide

/-! ## Domain date validation (`Education.Validate`, `Certification.Validate`)

`time.Parse("2006-01-02", s)` is modelled as strict `YYYY-MM-DD` parsing
with calendar validation (month 1–12, day within the month, Gregorian leap
rule), and `time.Time.Before` on two such dates as lexicographic comparison
of (year, month, day) — equivalent for instants parsed from this format.
`url.ParseRequestURI` (standard library) is a Bool-valued parameter. -/

/-- A parsed calendar date. -/
structure GoDate where
  Year : Nat
  Month : Nat
  Day : Nat
  deriving DecidableEq, Repr

/-- Value of an ASCII digit character. -/
def digitVal (c : Char) : Nat := c.toNat - 48

/-- Gregorian leap-year rule. -/
def isLeapYear (y : Nat) : Bool :=
  (y % 4 == 0) && (y % 100 != 0 || y % 400 == 0)

/-- Days in a month of a year. -/
def daysInMonth (y m : Nat) : Nat :=
  if m = 2 then (if isLeapYear y then 29 else 28)
  else if m = 4 ∨ m = 6 ∨ m = 9 ∨ m = 11 then 30
  else 31

/-- Models Go `time.Parse("2006-01-02", s)`: exactly ten characters
`YYYY-MM-DD`, a valid calendar date; `none` models a parse error. -/
def parseDate (s : GoStr) : Option GoDate :=
  match s with
  | [y1, y2, y3, y4, s1, m1, m2, s2, d1, d2] =>
    if isDigitCh y1 && isDigitCh y2 && isDigitCh y3 && isDigitCh y4 &&
        (s1 == '-') && isDigitCh m1 && isDigitCh m2 && (s2 == '-') &&
        isDigitCh d1 && isDigitCh d2 then
      let y := digitVal y1 * 1000 + digitVal y2 * 100 + digitVal y3 * 10 +
        digitVal y4
      let m := digitVal m1 * 10 + digitVal m2
      let d := digitVal d1 * 10 + digitVal d2
      if decide (1 ≤ m) && decide (m ≤ 12) && decide (1 ≤ d) &&
          decide (d ≤ daysInMonth y m) then
        some { Year := y, Month := m, Day := d }
      else none
    else none
  | _ => none

/-- Models `endDate.Before(startDate)` on dates parsed from `YYYY-MM-DD`. -/
def dateBefore (a b : GoDate) : Prop :=
  a.Year < b.Year ∨ (a.Year = b.Year ∧
    (a.Month < b.Month ∨ (a.Month = b.Month ∧ a.Day < b.Day)))

instance (a b : GoDate) : Decidable (dateBefore a b) := by
  unfold dateBefore
  infer_instance

/-- The two error kinds of the domain package
(`ErrInvalidField` / `ErrDateRange`). -/
inductive DomainErrKind where
  | invalidField
  | dateRange
  deriving DecidableEq, Repr

/-- Embeds `domain.ValidationError` (field, message, wrapped kind). -/
structure ValidationError where
  Field : GoStr
  Message : GoStr
  Err : DomainErrKind
  deriving DecidableEq, Repr

/-- Embeds `Education.Validate`. -/
def Education.Validate (e : Education) : Option ValidationError :=
  if trimSpace e.Institution = [] then
    some { Field := gs "institution", Message := gs "Institution is required"
           Err := .invalidField }
  else if trimSpace e.Degree = [] then
    some { Field := gs "degree", Message := gs "Degree is required"
           Err := .invalidField }
  else if trimSpace e.StartDate = [] then
    some { Field := gs "start_date", Message := gs "Start date is required"
           Err := .invalidField }
  else if e.StartDate ≠ [] then
    match parseDate e.StartDate with
    | none =>
      some { Field := gs "start_date"
             Message := gs "Invalid start date format (must be YYYY-MM-DD)"
             Err := .invalidField }
    | some startDate =>
      if e.EndDate ≠ [] ∧ e.EndDate ≠ gs "Present" then
        match parseDate e.EndDate with
        | none =>
          some { Field := gs "end_date"
                 Message := gs "Invalid end date format (must be YYYY-MM-DD or 'Present')"
                 Err := .invalidField }
        | some endDate =>
          if dateBefore endDate startDate then
            some { Field := gs "end_date"
                   Message := gs "End date must be after start date"
                   Err := .dateRange }
          else none
      else none
  else none

/-- Embeds the trailing URL validation in `Certification.Validate`
(`url.ParseRequestURI` success as the `uriOK` parameter). -/
def certURLCheck (uriOK : GoStr → Bool) (c : Certification) :
    Option ValidationError :=
  if c.URL ≠ [] then
    if uriOK c.URL then none
    else some { Field := gs "url", Message := gs "Invalid URL"
                Err := .invalidField }
  else none

/-- Embeds `Certification.Validate`; the date block either returns its
error or falls through to the URL check. -/
def Certification.Validate (uriOK : GoStr → Bool) (c : Certification) :
    Option ValidationError :=
  if trimSpace c.Name = [] then
    some { Field := gs "name", Message := gs "Certification name is required"
           Err := .invalidField }
  else if trimSpace c.Issuer = [] then
    some { Field := gs "issuer", Message := gs "Issuer is required"
           Err := .invalidField }
  else if trimSpace c.IssueDate = [] then
    some { Field := gs "issue_date", Message := gs "Issue date is required"
           Err := .invalidField }
  else if c.IssueDate ≠ [] then
    match parseDate c.IssueDate with
    | none =>
      some { Field := gs "issue_date"
             Message := gs "Invalid issue date format (must be YYYY-MM-DD)"
             Err := .invalidField }
    | some issueDate =>
      if c.ExpiryDate ≠ [] ∧ c.ExpiryDate ≠ gs "No Expiration" then
        match parseDate c.ExpiryDate with
        | none =>
          some { Field := gs "expiry_date"
                 Message := gs "Invalid expiry date format (must be YYYY-MM-DD or 'No Expiration')"
                 Err := .invalidField }
        | some expiryDate =>
          if dateBefore expiryDate issueDate then
            some { Field := gs "expiry_date"
                   Message := gs "Expiry date must be after issue date"
                   Err := .dateRange }
          else certURLCheck uriOK c
      else certURLCheck uriOK c
  else certURLCheck uriOK c

theorem parseDate_some_ne_nil {s : GoStr} {d : GoDate}
    (h : parseDate s = some d) : s ≠ [] := by
  intro he
  rw [he] at h
  have hn : parseDate [] = none := by decide
  rw [hn] at h
  exact Option.noConfusion h

theorem parseDate_some_ne_present {s : GoStr} {d : GoDate}
    (h : parseDate s = some d) : s ≠ gs "Present" := by
  intro he
  rw [he] at h
  have hn : parseDate (gs "Present") = none := by decide
  rw [hn] at h
  exact Option.noConfusion h

theorem parseDate_some_ne_noExpiration {s : GoStr} {d : GoDate}
    (h : parseDate s = some d) : s ≠ gs "No Expiration" := by
  intro he
  rw [he] at h
  have hn : parseDate (gs "No Expiration") = none := by decide
  rw [hn] at h
  exact Option.noConfusion h

theorem certURLCheck_not_dateRange (uriOK : GoStr → Bool) (c : Certification) :
    ∀ v, certURLCheck uriOK c = some v → v.Err ≠ .dateRange := by
  intro v hv
  unfold certURLCheck at hv
  by_cases h1 : c.URL ≠ []
  · rw [if_pos h1] at hv
    by_cases h2 : uriOK c.URL
    · rw [if_pos h2] at hv
      exact absurd hv (by simp)
    · rw [if_neg h2] at hv
      injection hv with hv
      rw [← hv]
      decide
  · rw [if_neg h1] at hv
    exact absurd hv (by simp)

/-- C6: with valid required fields and both dates concretely and validly
formatted, `Education.Validate` returns the `InvalidDateRange`-kind error
exactly when the end date precedes the start date (an equal end date
passes); an `EndDate` of `Present` is accepted without date parsing;
likewise `Certification.Validate` for issue/expiry dates and the
`No Expiration` sentinel (its URL check can only add an
`InvalidField`-kind error, never `InvalidDateRange`). -/
theorem C6_validate_date_range (e : Education) (sd ed : GoDate)
    (uriOK : GoStr → Bool) (c : Certification) (isd exd : GoDate)
    (h1 : trimSpace e.Institution ≠ []) (h2 : trimSpace e.Degree ≠ [])
    (h3 : trimSpace e.StartDate ≠ [])
    (hsd : parseDate e.StartDate = some sd)
    (hc1 : trimSpace c.Name ≠ []) (hc2 : trimSpace c.Issuer ≠ [])
    (hc3 : trimSpace c.IssueDate ≠ [])
    (hisd : parseDate c.IssueDate = some isd) :
    (parseDate e.EndDate = some ed →
      e.Validate = if dateBefore ed sd then
          some { Field := gs "end_date"
                 Message := gs "End date must be after start date"
                 Err := .dateRange }
        else none)
  ∧ (e.EndDate = gs "Present" → e.Validate = none)
  ∧ (parseDate c.ExpiryDate = some exd →
      ((dateBefore exd isd →
         c.Validate uriOK
           = some { Field := gs "expiry_date"
                    Message := gs "Expiry date must be after issue date"
                    Err := .dateRange })
       ∧ (¬ dateBefore exd isd → c.Validate uriOK = certURLCheck uriOK c)
       ∧ (∀ v, certURLCheck uriOK c = some v → v.Err ≠ .dateRange)))
  ∧ (c.ExpiryDate = gs "No Expiration" → c.URL = [] →
      c.Validate uriOK = none) := by
  have hS := parseDate_some_ne_nil hsd
  have hI := parseDate_some_ne_nil hisd
  refine ⟨?_, ?_, ?_, ?_⟩
  · intro hed
    have hE := parseDate_some_ne_nil hed
    have hEp := parseDate_some_ne_present hed
    simp only [Education.Validate, if_neg h1, if_neg h2, if_neg h3,
      if_pos hS, hsd]
    rw [if_pos (show e.EndDate ≠ [] ∧ e.EndDate ≠ gs "Present" from ⟨hE, hEp⟩)]
    simp only [hed]
  · intro hpres
    simp only [Education.Validate, if_neg h1, if_neg h2, if_neg h3,
      if_pos hS, hsd]
    rw [if_neg (by rw [hpres]; simp)]
  · intro hexd
    have hE := parseDate_some_ne_nil hexd
    have hEn := parseDate_some_ne_noExpiration hexd
    refine ⟨?_, ?_, certURLCheck_not_dateRange uriOK c⟩
    · intro hbefore
      simp only [Certification.Validate, if_neg hc1, if_neg hc2, if_neg hc3,
        if_pos hI, hisd]
      rw [if_pos (show c.ExpiryDate ≠ [] ∧ c.ExpiryDate ≠ gs "No Expiration"
        from ⟨hE, hEn⟩)]
      simp only [hexd]
      rw [if_pos hbefore]
    · intro hnb
      simp only [Certification.Validate, if_neg hc1, if_neg hc2, if_neg hc3,
        if_pos hI, hisd]
      rw [if_pos (show c.ExpiryDate ≠ [] ∧ c.ExpiryDate ≠ gs "No Expiration"
        from ⟨hE, hEn⟩)]
      simp only [hexd]
      rw [if_neg hnb]
  · intro hnoexp hurl
    simp only [Certification.Validate, if_neg hc1, if_neg hc2, if_neg hc3,
      if_pos hI, hisd]
    rw [if_neg (by rw [hnoexp]; simp)]
    simp [certURLCheck, hurl]

/-- Education record used by the C6 witness (end before start). -/
def wEdu : Education :=
  { Institution := gs "MIT", Location := [], Degree := gs "BS", Field := []
    StartDate := gs "2020-01-01", EndDate := gs "2019-01-01"
    Description := [] }

/-- Certification record used by the C6 witness (expiry before issue). -/
def wCert : Certification :=
  { Name := gs "Cert", Issuer := gs "Org", IssueDate := gs "2020-01-01"
    ExpiryDate := gs "2019-01-01", CredentialID := [], URL := [] }

/-- Witness for C6 at concrete inputs: end-before-start raises the
date-range error, the sentinels pass, an equal end date passes. -/
theorem C6_witness :
    wEdu.Validate = some { Field := gs "end_date"
                           Message := gs "End date must be after start date"
                           Err := .dateRange }
  ∧ ({ wEdu with EndDate := gs "Present" } : Education).Validate = none
  ∧ ({ wEdu with EndDate := gs "2020-01-01" } : Education).Validate = none
  ∧ (wCert.Validate (fun _ => true)
      = some { Field := gs "expiry_date"
               Message := gs "Expiry date must be after issue date"
               Err := .dateRange })
  ∧ ({ wCert with ExpiryDate := gs "No Expiration" } : Certification).Validate
      (fun _ => true) = none := by
  have h1 := C6_validate_date_range wEdu ⟨2020, 1, 1⟩ ⟨2019, 1, 1⟩
    (fun _ => true) wCert ⟨2020, 1, 1⟩ ⟨2019, 1, 1⟩
    (by decide) (by decide) (by decide) (by decide) (by decide) (by decide)
    (by decide) (by decide)
  have h2 := C6_validate_date_range
    ({ wEdu with EndDate := gs "Present" } : Education) ⟨2020, 1, 1⟩
    ⟨2019, 1, 1⟩ (fun _ => true)
    ({ wCert with ExpiryDate := gs "No Expiration" } : Certification)
    ⟨2020, 1, 1⟩ ⟨2019, 1, 1⟩
    (by decide) (by decide) (by decide) (by decide) (by decide) (by decide)
    (by decide) (by decide)
  have h3 := C6_validate_date_range
    ({ wEdu with EndDate := gs "2020-01-01" } : Education) ⟨2020, 1, 1⟩
    ⟨2020, 1, 1⟩ (fun _ => true) wCert ⟨2020, 1, 1⟩ ⟨2019, 1, 1⟩
    (by decide) (by decide) (by decide) (by decide) (by decide) (by decide)
    (by decide) (by decide)
  refine ⟨?_, ?_, ?_, ?_, ?_⟩
  · rw [h1.1 (by decide)]
    decide
  · exact h2.2.1 (by decide)
  · rw [h3.1 (by decide)]
    decide
  · exact (h1.2.2.1 (by decide)).1 (by decide)
  · exact h2.2.2.2 (by decide) (by decide)

/-! ## Session cookie manager (`backend/pkg/security/session.go`)

AES-256-GCM (`crypto/cipher`) and JSON serialization (`encoding/json`) are
external primitives passed as parameters — `sealFn`/`opn` for the cipher
(with the nonce-prepended layout and base64 wrapping embedded here),
`marshal`/`unmarshal` for the payload.  The inversion laws a theorem needs
are hypotheses on those parameters, instantiated concretely in the
witness. -/

/-- Embeds `security.SessionData`: user id, role, expiry (unix seconds,
`none` modelling the zero `time.Time`), custom data (string-keyed strings). -/
structure SessionData where
  UserID : GoStr
  Role : GoStr
  ExpiresAt : Option Int
  Data : List (GoStr × GoStr)
  deriving DecidableEq, Repr

/-- Embeds `security.SessionConfig` (SameSite as its integer constant). -/
structure SessionConfig where
  Key : List Nat
  CookieSecure : Bool
  CookiePath : GoStr
  CookieDomain : GoStr
  CookieMaxAge : Int
  CookieSameSite : Int
  deriving DecidableEq, Repr

/-- An `http.Cookie` as the session manager sets it. -/
structure GoCookie where
  Name : GoStr
  Value : GoStr
  Path : GoStr
  Domain : GoStr
  MaxAge : Int
  Secure : Bool
  HttpOnly : Bool
  SameSite : Int
  deriving DecidableEq, Repr

/-- `aesGCM.Seal` (key, nonce, plaintext to ciphertext). -/
abbrev SealFun := List Nat → List Nat → List Nat → List Nat

/-- `aesGCM.Open` (key, nonce, ciphertext to plaintext or failure). -/
abbrev OpenFun := List Nat → List Nat → List Nat → Option (List Nat)

/-- `json.Marshal` on a session payload. -/
abbrev MarshalFun := SessionData → List Nat

/-- `json.Unmarshal` into a session payload. -/
abbrev UnmarshalFun := List Nat → Option SessionData

/-- The AES-GCM nonce size (12 bytes). -/
def gcmNonceSize : Nat := 12

/-- Embeds the session error conditions: `ErrSessionDecryption`,
`ErrInvalidSession`, the `"session expired"` error, and a missing cookie
(`r.Cookie` error, returned verbatim). -/
inductive SessionError where
  | decryptionFailed
  | invalidSession
  | expired
  | cookieMissing
  deriving DecidableEq, Repr

/-- Embeds `Session.encrypt`: GCM-seal, prepend the nonce, base64. -/
def sessionEncrypt (sealFn : SealFun) (cfg : SessionConfig)
    (nonce plaintext : List Nat) : GoStr :=
  b64Std (nonce ++ sealFn cfg.Key nonce plaintext)

/-- Embeds `Session.decrypt`: base64-decode, split off the nonce, open. -/
def sessionDecrypt (opn : OpenFun) (cfg : SessionConfig)
    (encryptedData : GoStr) : Option (List Nat) :=
  match b64StdDec encryptedData with
  | none => none
  | some ciphertext =>
    if ciphertext.length < gcmNonceSize then none
    else opn cfg.Key (ciphertext.take gcmNonceSize)
      (ciphertext.drop gcmNonceSize)

/-- Embeds `Session.Create` with the clock and nonce explicit: default a
zero expiry to now + CookieMaxAge, marshal, encrypt, set the cookie. -/
def SessionCreate (sealFn : SealFun) (marshal : MarshalFun)
    (cfg : SessionConfig) (now : Int) (nonce : List Nat)
    (sessionData : SessionData) : GoCookie :=
  let sd := if sessionData.ExpiresAt = none
    then { sessionData with ExpiresAt := some (now + cfg.CookieMaxAge) }
    else sessionData
  { Name := gs "session"
    Value := sessionEncrypt sealFn cfg nonce (marshal sd)
    Path := cfg.CookiePath
    Domain := cfg.CookieDomain
    MaxAge := cfg.CookieMaxAge
    Secure := cfg.CookieSecure
    HttpOnly := true
    SameSite := cfg.CookieSameSite }

/-- Embeds `Session.Get`: read the cookie, decrypt, unmarshal, reject a
passed expiry (`time.Now().After(expiresAt)`, strict; the zero time is
always in the past). -/
def SessionGet (opn : OpenFun) (unmarshal : UnmarshalFun)
    (cfg : SessionConfig) (now : Int) (cookieValue : Option GoStr) :
    Except SessionError SessionData :=
  match cookieValue with
  | none => .error .cookieMissing
  | some v =>
    match sessionDecrypt opn cfg v with
    | none => .error .decryptionFailed
    | some jsonData =>
      match unmarshal jsonData with
      | none => .error .invalidSession
      | some sessionData =>
        match sessionData.ExpiresAt with
        | none => .error .expired
        | some e => if now > e then .error .expired else .ok sessionData

/-- Embeds `Session.Clear`: overwrite with an empty value and MaxAge −1. -/
def SessionClear (cfg : SessionConfig) : GoCookie :=
  { Name := gs "session"
    Value := []
    Path := cfg.CookiePath
    Domain := cfg.CookieDomain
    MaxAge := -1
    Secure := cfg.CookieSecure
    HttpOnly := true
    SameSite := cfg.CookieSameSite }

/-- C8: creating a session whose payload has a concrete expiry and reading
the cookie back with the same key recovers the identical UserID, Role and
custom-data fields (the whole payload) while the expiry has not passed; a
payload whose expiry lies in the past fails `Get` with the session-expired
error; and `Clear` sets a cookie with empty value and MaxAge −1.  The
cipher and JSON inversion laws at this payload are hypotheses on the
external primitives. -/
theorem C8_session_roundtrip (sealFn : SealFun) (opn : OpenFun)
    (marshal : MarshalFun) (unmarshal : UnmarshalFun) (cfg : SessionConfig)
    (now : Int) (nonce : List Nat) (d : SessionData) (e : Int)
    (hexp : d.ExpiresAt = some e)
    (hnonce : nonce.length = gcmNonceSize)
    (hbn : Bytes nonce) (hbc : Bytes (sealFn cfg.Key nonce (marshal d)))
    (hopen : opn cfg.Key nonce (sealFn cfg.Key nonce (marshal d))
      = some (marshal d))
    (hunmar : unmarshal (marshal d) = some d) :
    (now ≤ e →
      SessionGet opn unmarshal cfg now
        (some (SessionCreate sealFn marshal cfg now nonce d).Value) = .ok d)
  ∧ (e < now →
      SessionGet opn unmarshal cfg now
        (some (SessionCreate sealFn marshal cfg now nonce d).Value)
        = .error .expired)
  ∧ ((SessionClear cfg).Value = [] ∧ (SessionClear cfg).MaxAge = -1) := by
  have hval : (SessionCreate sealFn marshal cfg now nonce d).Value
      = b64Std (nonce ++ sealFn cfg.Key nonce (marshal d)) := by
    unfold SessionCreate
    simp [hexp, sessionEncrypt]
  have hbytes : Bytes (nonce ++ sealFn cfg.Key nonce (marshal d)) := by
    intro b hb
    rcases List.mem_append.mp hb with hb | hb
    · exact hbn b hb
    · exact hbc b hb
  have hdec : sessionDecrypt opn cfg
      (b64Std (nonce ++ sealFn cfg.Key nonce (marshal d)))
      = some (marshal d) := by
    unfold sessionDecrypt
    rw [b64StdDec_b64Std _ hbytes]
    have hlen : (nonce ++ sealFn cfg.Key nonce (marshal d)).length
        = gcmNonceSize + (sealFn cfg.Key nonce (marshal d)).length := by
      simp [hnonce]
    show (if (nonce ++ sealFn cfg.Key nonce (marshal d)).length < gcmNonceSize
        then none
        else opn cfg.Key
          ((nonce ++ sealFn cfg.Key nonce (marshal d)).take gcmNonceSize)
          ((nonce ++ sealFn cfg.Key nonce (marshal d)).drop gcmNonceSize))
      = some (marshal d)
    rw [if_neg (by omega), ← hnonce, List.take_left, List.drop_left]
    exact hopen
  have hget : ∀ now2 : Int, SessionGet opn unmarshal cfg now2
      (some (SessionCreate sealFn marshal cfg now nonce d).Value)
      = if now2 > e then .error .expired else .ok d := by
    intro now2
    unfold SessionGet
    rw [hval]
    simp only [hdec, hunmar, hexp]
  refine ⟨?_, ?_, rfl, rfl⟩
  · intro h
    rw [hget now, if_neg (by omega)]
  · intro h
    rw [hget now, if_pos (by omega)]

/-- Session payload used by the C8 witness (the spec's example values). -/
def wSession : SessionData :=
  { UserID := gs "user123", Role := gs "admin", ExpiresAt := some 1000
    Data := [(gs "username", gs "testuser")] }

/-- Session configuration used by the C8 witness (32-byte key). -/
def wSessionCfg : SessionConfig :=
  { Key := List.replicate 32 1, CookieSecure := false, CookiePath := gs "/"
    CookieDomain := [], CookieMaxAge := 86400, CookieSameSite := 2 }

/-- Identity cipher stand-in used by the C8 witness. -/
def wSeal : SealFun := fun _ _ plaintext => plaintext

/-- Inverse of `wSeal`. -/
def wOpen : OpenFun := fun _ _ ciphertext => some ciphertext

/-- Marshal stand-in used by the C8 witness. -/
def wMarshal : MarshalFun := fun _ => [0]

/-- Inverse of `wMarshal` at the witness payload. -/
def wUnmarshal : UnmarshalFun := fun _ => some wSession

/-- Witness for C8 at concrete inputs: read-back before the expiry
recovers the payload, read-back after it reports expiry, `Clear` sets the
empty cookie with MaxAge −1. -/
theorem C8_witness :
    SessionGet wOpen wUnmarshal wSessionCfg 100
      (some (SessionCreate wSeal wMarshal wSessionCfg 100
        (List.replicate 12 0) wSession).Value) = .ok wSession
  ∧ SessionGet wOpen wUnmarshal wSessionCfg 2000
      (some (SessionCreate wSeal wMarshal wSessionCfg 2000
        (List.replicate 12 0) wSession).Value) = .error .expired
  ∧ (SessionClear wSessionCfg).Value = []
  ∧ (SessionClear wSessionCfg).MaxAge = -1 := by
  have h1 := C8_session_roundtrip wSeal wOpen wMarshal wUnmarshal wSessionCfg
    100 (List.replicate 12 0) wSession 1000 rfl (by decide) (by decide)
    (by decide) rfl rfl
  have h2 := C8_session_roundtrip wSeal wOpen wMarshal wUnmarshal wSessionCfg
    2000 (List.replicate 12 0) wSession 1000 rfl (by decide) (by decide)
    (by decide) rfl rfl
  exact ⟨h1.1 (by decide), h2.2.1 (by decide), h1.2.2.1, h1.2.2.2⟩

end ResumeGen
